import Mathlib

/-!
Verification of the pptx-masters color-resolution and shape-mapping pipeline.

The JavaScript source is shallowly embedded: JS numbers are modelled as exact
rationals (`ℚ`), `Math.round` as `jsRound` (floor of `x + 1/2`, JS rounds
half-up), the JS remainder operator as `jsMod` (sign of the dividend), JS
`undefined` as `Option.none`, and the JS `||` default idiom on strings as
`jsOr` (the empty string is falsy). Record fields keep the source's names.
-/


/-- JS `Math.round`: rounds half toward positive infinity. -/
def jsRound (q : ℚ) : ℤ := ⌊q + 1/2⌋

/-- Truncation toward zero, as JS number-to-integer conversion uses. -/
def ratTrunc (q : ℚ) : ℤ := if q < 0 then ⌈q⌉ else ⌊q⌋

/-- JS `%` remainder: `a - n * trunc(a / n)` (sign follows the dividend). -/
def jsMod (a n : ℚ) : ℚ := a - n * (ratTrunc (a / n) : ℚ)

/-- `Math.max(0, Math.min(1, x))`, the clamp used for saturation/luminance. -/
def clamp01 (x : ℚ) : ℚ := max 0 (min 1 x)

/-- JS `opt || dflt` on an optional string: `undefined` and `""` are falsy. -/
def jsOr (o : Option String) (d : String) : String :=
  match o with
  | some s => if s = "" then d else s
  | none => d

/-- JS string truthiness of a possibly-undefined string value. -/
def jsTruthy (o : Option String) : Bool :=
  match o with
  | some s => !(s = "")
  | none => false

-- ## Color math engine (src/unnamed/part_002)

/--
`rgbToHsl(r, g, b)` from the source: channels 0-255, output `[h, s, l]`
with hue in degrees and saturation/lightness in `[0, 1]`.
-/
def rgbToHsl (r0 g0 b0 : ℚ) : ℚ × ℚ × ℚ :=
  let r := r0 / 255
  let g := g0 / 255
  let b := b0 / 255
  let mx := max r (max g b)
  let mn := min r (min g b)
  let l := (mx + mn) / 2
  if mx = mn then (0, 0, l)
  else
    let d := mx - mn
    let s := if l > 1/2 then d / (2 - mx - mn) else d / (mx + mn)
    let h :=
      if mx = r then ((g - b) / d + (if g < b then (6 : ℚ) else 0)) / 6
      else if mx = g then ((b - r) / d + 2) / 6
      else ((r - g) / d + 4) / 6
    (h * 360, s, l)

/-- The `hue2rgb(p, q, t)` helper inside `hslToRgb`. -/
def hue2rgb (p q t0 : ℚ) : ℚ :=
  let t1 := if t0 < 0 then t0 + 1 else t0
  let t := if t1 > 1 then t1 - 1 else t1
  if t < 1/6 then p + (q - p) * 6 * t
  else if t < 1/2 then q
  else if t < 2/3 then p + (q - p) * (2/3 - t) * 6
  else p

/--
`hslToRgb(h, s, l)` from the source: hue in degrees, s/l in `[0, 1]`,
output channels are `Math.round`ed to integers 0-255.
-/
def hslToRgb (h0 s l : ℚ) : ℤ × ℤ × ℤ :=
  let h := h0 / 360
  if s = 0 then
    let v := jsRound (l * 255)
    (v, v, v)
  else
    let q := if l < 1/2 then l * (1 + s) else l + s - l * s
    let p := 2 * l - q
    (jsRound (hue2rgb p q (h + 1/3) * 255),
     jsRound (hue2rgb p q h * 255),
     jsRound (hue2rgb p q (h - 1/3) * 255))

/-- The per-channel `toHex` clamp-and-round inside `rgbToHex`. -/
def toHexByte (v : ℚ) : ℤ := jsRound (max 0 (min 255 v))

/-- Hex digit characters used when formatting a byte (uppercase, as the source). -/
def hexDigitChar (n : ℕ) : Char :=
  (['0', '1', '2', '3', '4', '5', '6', '7', '8', '9',
    'A', 'B', 'C', 'D', 'E', 'F']).getD n '0'

/-- Two-digit uppercase hex rendering of a clamped byte:
`v.toString(16).padStart(2, '0').toUpperCase()` for `0 ≤ v ≤ 255`. -/
def byteToHex (n : ℤ) : String :=
  String.mk [hexDigitChar (n.toNat / 16), hexDigitChar (n.toNat % 16)]

/-- `rgbToHex(r, g, b)`: clamp each channel to `[0,255]`, round, format. -/
def rgbToHex (r g b : ℚ) : String :=
  byteToHex (toHexByte r) ++ byteToHex (toHexByte g) ++ byteToHex (toHexByte b)

/-- Value of one hex digit, or `none` for a non-hex character. -/
def hexDigitVal (c : Char) : Option ℕ :=
  if '0' ≤ c ∧ c ≤ '9' then some (c.toNat - 48)
  else if 'a' ≤ c ∧ c ≤ 'f' then some (c.toNat - 87)
  else if 'A' ≤ c ∧ c ≤ 'F' then some (c.toNat - 55)
  else none

/--
`hexToRgb(hex)`: parse `hex.slice(0,2)`, `hex.slice(2,4)`, `hex.slice(4,6)`
as bytes. The JS version produces `NaN` channels on malformed input; the
embedding returns `none` there (all claims quantify over valid hex colors).
-/
def hexToRgb (hex : String) : Option (ℤ × ℤ × ℤ) :=
  match hex.toList with
  | c0 :: c1 :: c2 :: c3 :: c4 :: c5 :: _ =>
    match hexDigitVal c0, hexDigitVal c1, hexDigitVal c2,
          hexDigitVal c3, hexDigitVal c4, hexDigitVal c5 with
    | some d0, some d1, some d2, some d3, some d4, some d5 =>
      some ((16 * d0 + d1 : ℤ), (16 * d2 + d3 : ℤ), (16 * d4 + d5 : ℤ))
    | _, _, _, _, _, _ => none
  | _ => none

/-- The OOXML color modifiers extracted by `extractModifiers` (values are the
`Number(child['@_val'])` of each present child element). -/
structure ColorModifiers where
  tint : Option ℚ := none
  shade : Option ℚ := none
  hueMod : Option ℚ := none
  hueOff : Option ℚ := none
  satMod : Option ℚ := none
  satOff : Option ℚ := none
  lumMod : Option ℚ := none
  lumOff : Option ℚ := none
  alpha : Option ℚ := none
deriving DecidableEq

/-- `hasModifiers(mods)`: any color-altering modifier present (alpha excluded). -/
def hasModifiers (m : ColorModifiers) : Bool :=
  m.tint.isSome || m.shade.isSome
    || m.lumMod.isSome || m.lumOff.isSome
    || m.satMod.isSome || m.satOff.isSome
    || m.hueMod.isSome || m.hueOff.isSome

/--
The numeric body of `applyColorModifiers`: the pipeline between `hexToRgb`
and the final hex formatting, on RGB channel values. Shade, then tint, then
HSL conversion, hue/sat/lum modifiers in source order, final clamp of `l`,
conversion back to RGB and the `rgbToHex` per-channel clamp-round.
-/
def applyColorModifiersRGB (r0 g0 b0 : ℚ) (m : ColorModifiers) : ℤ × ℤ × ℤ :=
  let r1 := match m.shade with
    | some v => ((jsRound (r0 * (v / 100000)) : ℤ) : ℚ)
    | none => r0
  let g1 := match m.shade with
    | some v => ((jsRound (g0 * (v / 100000)) : ℤ) : ℚ)
    | none => g0
  let b1 := match m.shade with
    | some v => ((jsRound (b0 * (v / 100000)) : ℤ) : ℚ)
    | none => b0
  let r2 := match m.tint with
    | some v => ((jsRound (r1 + (255 - r1) * (v / 100000)) : ℤ) : ℚ)
    | none => r1
  let g2 := match m.tint with
    | some v => ((jsRound (g1 + (255 - g1) * (v / 100000)) : ℤ) : ℚ)
    | none => g1
  let b2 := match m.tint with
    | some v => ((jsRound (b1 + (255 - b1) * (v / 100000)) : ℤ) : ℚ)
    | none => b1
  let hsl := rgbToHsl r2 g2 b2
  let h0 := hsl.1
  let s0 := hsl.2.1
  let l0 := hsl.2.2
  let h1 := match m.hueMod with
    | some v => jsMod (h0 * (v / 100000)) 360
    | none => h0
  let h2 := match m.hueOff with
    | some v => jsMod (jsMod (h1 + v / 60000) 360 + 360) 360
    | none => h1
  let s1 := match m.satMod with
    | some v => clamp01 (s0 * (v / 100000))
    | none => s0
  let s2 := match m.satOff with
    | some v => clamp01 (s1 + v / 100000)
    | none => s1
  let l1 := match m.lumMod with
    | some v => l0 * (v / 100000)
    | none => l0
  let l2 := match m.lumOff with
    | some v => l1 + v / 100000
    | none => l1
  let l3 := clamp01 l2
  let rgb := hslToRgb h2 s2 l3
  (toHexByte (rgb.1 : ℚ), toHexByte (rgb.2.1 : ℚ), toHexByte (rgb.2.2 : ℚ))

/--
`applyColorModifiers(hex, modifiers)` at the hex-string level. Malformed hex
(where JS would propagate `NaN` into a `"NaNNaNNaN"` string) is mapped to
`""`; every claim quantifies over well-formed 6-digit colors.
-/
def applyColorModifiersHex (hex : String) (m : ColorModifiers) : String :=
  match hexToRgb hex with
  | some (r, g, b) =>
    let t := applyColorModifiersRGB (r : ℚ) (g : ℚ) (b : ℚ) m
    byteToHex t.1 ++ byteToHex t.2.1 ++ byteToHex t.2.2
  | none => ""

-- ## Color resolver (src/unnamed/part_002, createColorResolver)

/-- `PRESET_COLORS`: the OOXML preset color name table. -/
def PRESET_COLORS : List (String × String) := [
  ("aliceBlue", "F0F8FF"),
  ("antiqueWhite", "FAEBD7"),
  ("aqua", "00FFFF"),
  ("aquamarine", "7FFFD4"),
  ("azure", "F0FFFF"),
  ("beige", "F5F5DC"),
  ("bisque", "FFE4C4"),
  ("black", "000000"),
  ("blanchedAlmond", "FFEBCD"),
  ("blue", "0000FF"),
  ("blueViolet", "8A2BE2"),
  ("brown", "A52A2A"),
  ("burlyWood", "DEB887"),
  ("cadetBlue", "5F9EA0"),
  ("chartreuse", "7FFF00"),
  ("chocolate", "D2691E"),
  ("coral", "FF7F50"),
  ("cornflowerBlue", "6495ED"),
  ("cornsilk", "FFF8DC"),
  ("crimson", "DC143C"),
  ("cyan", "00FFFF"),
  ("dkBlue", "00008B"),
  ("dkCyan", "008B8B"),
  ("dkGoldenrod", "B8860B"),
  ("dkGray", "A9A9A9"),
  ("dkGreen", "006400"),
  ("dkKhaki", "BDB76B"),
  ("dkMagenta", "8B008B"),
  ("dkOliveGreen", "556B2F"),
  ("dkOrange", "FF8C00"),
  ("dkOrchid", "9932CC"),
  ("dkRed", "8B0000"),
  ("dkSalmon", "E9967A"),
  ("dkSeaGreen", "8FBC8F"),
  ("dkSlateBlue", "483D8B"),
  ("dkSlateGray", "2F4F4F"),
  ("dkTurquoise", "00CED1"),
  ("dkViolet", "9400D3"),
  ("deepPink", "FF1493"),
  ("deepSkyBlue", "00BFFF"),
  ("dimGray", "696969"),
  ("dodgerBlue", "1E90FF"),
  ("firebrick", "B22222"),
  ("floralWhite", "FFFAF0"),
  ("forestGreen", "228B22"),
  ("fuchsia", "FF00FF"),
  ("gainsboro", "DCDCDC"),
  ("ghostWhite", "F8F8FF"),
  ("gold", "FFD700"),
  ("goldenrod", "DAA520"),
  ("gray", "808080"),
  ("green", "008000"),
  ("greenYellow", "ADFF2F"),
  ("honeydew", "F0FFF0"),
  ("hotPink", "FF69B4"),
  ("indianRed", "CD5C5C"),
  ("indigo", "4B0082"),
  ("ivory", "FFFFF0"),
  ("khaki", "F0E68C"),
  ("lavender", "E6E6FA"),
  ("lavenderBlush", "FFF0F5"),
  ("lawnGreen", "7CFC00"),
  ("lemonChiffon", "FFFACD"),
  ("ltBlue", "ADD8E6"),
  ("ltCoral", "F08080"),
  ("ltCyan", "E0FFFF"),
  ("ltGoldenrodYellow", "FAFAD2"),
  ("ltGray", "D3D3D3"),
  ("ltGreen", "90EE90"),
  ("ltPink", "FFB6C1"),
  ("ltSalmon", "FFA07A"),
  ("ltSeaGreen", "20B2AA"),
  ("ltSkyBlue", "87CEFA"),
  ("ltSlateGray", "778899"),
  ("ltSteelBlue", "B0C4DE"),
  ("ltYellow", "FFFFE0"),
  ("lime", "00FF00"),
  ("limeGreen", "32CD32"),
  ("linen", "FAF0E6"),
  ("magenta", "FF00FF"),
  ("maroon", "800000"),
  ("medAquamarine", "66CDAA"),
  ("medBlue", "0000CD"),
  ("medOrchid", "BA55D3"),
  ("medPurple", "9370DB"),
  ("medSeaGreen", "3CB371"),
  ("medSlateBlue", "7B68EE"),
  ("medSpringGreen", "00FA9A"),
  ("medTurquoise", "48D1CC"),
  ("medVioletRed", "C71585"),
  ("midnightBlue", "191970"),
  ("mintCream", "F5FFFA"),
  ("mistyRose", "FFE4E1"),
  ("moccasin", "FFE4B5"),
  ("navajoWhite", "FFDEAD"),
  ("navy", "000080"),
  ("oldLace", "FDF5E6"),
  ("olive", "808000"),
  ("oliveDrab", "6B8E23"),
  ("orange", "FFA500"),
  ("orangeRed", "FF4500"),
  ("orchid", "DA70D6"),
  ("paleGoldenrod", "EEE8AA"),
  ("paleGreen", "98FB98"),
  ("paleTurquoise", "AFEEEE"),
  ("paleVioletRed", "DB7093"),
  ("papayaWhip", "FFEFD5"),
  ("peachPuff", "FFDAB9"),
  ("peru", "CD853F"),
  ("pink", "FFC0CB"),
  ("plum", "DDA0DD"),
  ("powderBlue", "B0E0E6"),
  ("purple", "800080"),
  ("red", "FF0000"),
  ("rosyBrown", "BC8F8F"),
  ("royalBlue", "4169E1"),
  ("saddleBrown", "8B4513"),
  ("salmon", "FA8072"),
  ("sandyBrown", "F4A460"),
  ("seaGreen", "2E8B57"),
  ("seaShell", "FFF5EE"),
  ("sienna", "A0522D"),
  ("silver", "C0C0C0"),
  ("skyBlue", "87CEEB"),
  ("slateBlue", "6A5ACD"),
  ("slateGray", "708090"),
  ("snow", "FFFAFA"),
  ("springGreen", "00FF7F"),
  ("steelBlue", "4682B4"),
  ("tan", "D2B48C"),
  ("teal", "008080"),
  ("thistle", "D8BFD8"),
  ("tomato", "FF6347"),
  ("turquoise", "40E0D0"),
  ("violet", "EE82EE"),
  ("wheat", "F5DEB3"),
  ("white", "FFFFFF"),
  ("whiteSmoke", "F5F5F5"),
  ("yellow", "FFFF00"),
  ("yellowGreen", "9ACD32")
]

/--
`resolveSchemeColor(schemeName)` closed over `themeColors` and the color
map: map the name through `clrMap` (falling back to the name itself), look
the slot up in `themeColors`, retry the original name on a miss, and
finally fall back to the literal string `"000000"`.
-/
def resolveSchemeColor (themeColors clrMap : String → Option String)
    (schemeName : String) : String :=
  let mapped := jsOr (clrMap schemeName) schemeName
  let hex := themeColors mapped
  if jsTruthy hex then hex.getD "000000"
  else jsOr (themeColors schemeName) "000000"

/-- A parsed `a:srgbClr` element: `@_val` plus modifier children. -/
structure SrgbClrEl where
  val : Option String := none
  mods : ColorModifiers := {}
deriving DecidableEq

/-- A parsed `a:schemeClr` element: `@_val` plus modifier children. -/
structure SchemeClrEl where
  val : String
  mods : ColorModifiers := {}
deriving DecidableEq

/-- A parsed `a:sysClr` element: `@_lastClr` plus any modifier children
that may be present in the XML (the source never reads them). -/
structure SysClrEl where
  lastClr : Option String := none
  mods : ColorModifiers := {}
deriving DecidableEq

/-- A parsed `a:prstClr` element: `@_val` plus modifier children. -/
structure PrstClrEl where
  val : Option String := none
  mods : ColorModifiers := {}
deriving DecidableEq

/-- A parsed color element: at most one of the four color-kind children is
inspected, in the source's dispatch order. -/
structure ColorElement where
  srgbClr : Option SrgbClrEl := none
  schemeClr : Option SchemeClrEl := none
  sysClr : Option SysClrEl := none
  prstClr : Option PrstClrEl := none
deriving DecidableEq

/-- The resolver's output `{ color, transparency? }`; a missing
`transparency` key is `none`. -/
structure ResolvedColor where
  color : String
  transparency : Option ℤ := none
deriving DecidableEq

/-- The `transparency` computation: `Math.round(100 - alpha / 1000)`. -/
def alphaToTransparency (alpha : ℚ) : ℤ := jsRound (100 - alpha / 1000)

/-- `resolveSrgbClr(el)`: direct value with optional modifiers and alpha. -/
def resolveSrgbClr (el : SrgbClrEl) : ResolvedColor :=
  let hex := jsOr el.val "000000"
  let hex := if hasModifiers el.mods then applyColorModifiersHex hex el.mods else hex
  { color := hex, transparency := el.mods.alpha.map alphaToTransparency }

/-- `resolveSchemeClrElement(el)`: the full scheme resolution chain;
`phClr` returns `{ color: '000000' }` before modifiers are extracted. -/
def resolveSchemeClrElement (themeColors clrMap : String → Option String)
    (el : SchemeClrEl) : ResolvedColor :=
  if el.val = "phClr" then { color := "000000" }
  else
    let hex := resolveSchemeColor themeColors clrMap el.val
    let hex := if hasModifiers el.mods then applyColorModifiersHex hex el.mods else hex
    { color := hex, transparency := el.mods.alpha.map alphaToTransparency }

/-- The `a:prstClr` branch of `resolve`: preset table lookup with
`'000000'` fallback, then modifiers and alpha. -/
def resolvePrstClr (el : PrstClrEl) : ResolvedColor :=
  let hex := jsOr (el.val.bind (fun n => PRESET_COLORS.lookup n)) "000000"
  let hex := if hasModifiers el.mods then applyColorModifiersHex hex el.mods else hex
  { color := hex, transparency := el.mods.alpha.map alphaToTransparency }

/--
`resolve(colorElement)`: dispatch on the first matching color kind, in the
source order srgbClr, schemeClr, sysClr, prstClr; `null` input and an
element with no recognized kind both return `null`. The sysClr branch
returns the carried `@_lastClr` (default `'000000'`) directly: it extracts
no modifiers and no alpha.
-/
def resolve (themeColors clrMap : String → Option String)
    (colorElement : Option ColorElement) : Option ResolvedColor :=
  match colorElement with
  | none => none
  | some el =>
    match el.srgbClr with
    | some s => some (resolveSrgbClr s)
    | none =>
      match el.schemeClr with
      | some s => some (resolveSchemeClrElement themeColors clrMap s)
      | none =>
        match el.sysClr with
        | some s => some { color := jsOr s.lastClr "000000" }
        | none =>
          match el.prstClr with
          | some p => some (resolvePrstClr p)
          | none => none

-- ## Evaluation lemmas for hue2rgb on each interval of its t argument

-- ## Run extraction (src/unnamed/part_003, extractRuns)

/-- A parsed `a:r` element: its `a:t` text child. The run-styling record
produced by `extractRunProps` is carried through `extractRuns` unchanged
and never affects run placement, so it is not modelled. -/
structure TextRunEl where
  t : Option String := none
deriving DecidableEq

/-- A parsed `a:fld` element: `a:t` text child and `@_type` attribute. -/
structure FldEl where
  t : Option String := none
  typ : Option String := none
deriving DecidableEq

/-- An output run of `extractRuns`: text content plus the `isField`,
`fieldType` and `isBreak` marks (absent keys modelled by the defaults). -/
structure Run where
  text : String := ""
  isField : Bool := false
  fieldType : String := ""
  isBreak : Bool := false
deriving DecidableEq

/-- One `a:r` output item: `{ text, ...props }`. -/
def mkTextRun (r : TextRunEl) : Run := { text := r.t.getD "" }

/-- One `a:fld` output item: `{ text, ...props, isField, fieldType }`. -/
def mkFieldRun (f : FldEl) : Run :=
  { text := f.t.getD "", isField := true, fieldType := jsOr f.typ "" }

/-- The break item pushed for each `a:br`: `{ text: '\n', isBreak: true }`. -/
def breakRun : Run := { text := "\n", isBreak := true }

/-- The `contentRuns` array: `a:r` items then `a:fld` items, in order. -/
def contentRunsOf (ar : List TextRunEl) (afld : List FldEl) : List Run :=
  ar.map mkTextRun ++ afld.map mkFieldRun

/-- The interleaving loop of `extractRuns`: push run `i`, and after each of
the first `breakCount` runs push a break item. -/
def interleaveBreaks : List Run → ℕ → List Run
  | [], _ => []
  | r :: rest, 0 => r :: interleaveBreaks rest 0
  | r :: rest, Nat.succ k => r :: breakRun :: interleaveBreaks rest k

/--
`extractRuns(p)`: content runs from `a:r` and `a:fld` children, then break
handling. Break elements carry no data, so the `a:br` children are
modelled by their count. When `0 < breakCount ≤ contentRuns.length - 1`
(and there are at least two content runs) breaks are interleaved; in every
other case they are appended after the content runs.
-/
def extractRuns (ar : List TextRunEl) (afld : List FldEl)
    (breakCount : ℕ) : List Run :=
  let contentRuns := contentRunsOf ar afld
  if 0 < breakCount ∧ 1 < contentRuns.length
      ∧ breakCount ≤ contentRuns.length - 1 then
    interleaveBreaks contentRuns breakCount
  else
    contentRuns ++ List.replicate breakCount breakRun

-- ## Layout placeholder inheritance (src/src/parser/layout.js, processShape)

/-- A position record from `extractPosition`: `{ x, y, w, h }` in inches. -/
structure Position where
  x : ℚ
  y : ℚ
  w : ℚ
  h : ℚ
deriving DecidableEq

/-- The `p:ph` marker from `extractPlaceholder`: `@_type` (an empty string
collapses to `undefined` via `|| undefined`) and the raw `@_idx`. -/
structure PhTag where
  type : Option String := none
  idx : Option String := none
deriving DecidableEq

/-- A master `placeholderDefaults` entry `{ position, textProps }`. Text
bodies are opaque to the inheritance logic (only their presence is
tested), so `textProps` is represented by a token string. -/
structure MasterPh where
  position : Option Position := none
  textProps : Option String := none
deriving DecidableEq

/-- The master lookup
`(ph.type && md[ph.type]) || (ph.idx != null && md['idx:' + ph.idx]) || null`:
type-keyed first, idx-keyed otherwise. -/
def lookupMasterPh (md : String → Option MasterPh) (ph : PhTag) :
    Option MasterPh :=
  match ph.type.bind md with
  | some m => some m
  | none =>
    match ph.idx with
    | some i => md ("idx:" ++ i)
    | none => none

/--
The placeholder path of `processShape` (src/src/parser/layout.js lines
132-160): `position` and `textProps` are the locally extracted
`extractPosition(spPr.xfrm)` and `extractTextProps(txBody)` values.
The master-defaults lookup runs only when the local position is missing;
inside that same block, a missing local text body also inherits the
master entry's textProps.
-/
def processShapePlaceholder (ph : PhTag) (position : Option Position)
    (textProps : Option String)
    (masterDefaults : Option (String → Option MasterPh)) :
    Option Position × Option String :=
  match position, masterDefaults with
  | none, some md =>
    let masterPh := lookupMasterPh md ph
    let pos' := match masterPh with
      | some m => m.position
      | none => none
    let tp' := match textProps with
      | some t => some t
      | none =>
        match masterPh with
        | some m => m.textProps
        | none => none
    (pos', tp')
  | _, _ => (position, textProps)

-- ## Slide number detection (src/src/mapper/slideNumber.js)

/-- The subset of `mapTextPropsToOptions` output the slide-number mapper
consumes for geometry: `fontSize` (fontFace/color/align/margin are carried
strings that never affect detection or height normalization). -/
structure TextOpts where
  fontSize : Option ℚ := none
deriving DecidableEq

/-- A paragraph as seen by the slide-number mapper: its `runs` array. -/
structure SNPara where
  runs : Option (List Run) := none
deriving DecidableEq

/-- A shape's `textProps` as consumed by `extractSlideNumberFromShape`. -/
structure SNTextProps where
  paragraphs : Option (List SNPara) := none
  textOpts : TextOpts := {}
deriving DecidableEq

/-- A parsed static shape handed to `extractSlideNumberFromShape`. -/
structure SNShape where
  textProps : Option SNTextProps := none
  position : Option Position := none
deriving DecidableEq

/-- The slide-number result: position fields plus the optional fontSize. -/
structure SlideNumResult where
  x : ℚ
  y : ℚ
  w : ℚ
  h : ℚ
  fontSize : Option ℚ := none
deriving DecidableEq

/-- `run.isField && run.fieldType === 'slidenum'`. -/
def runIsSlideNumField (r : Run) : Bool :=
  r.isField && r.fieldType == "slidenum"

/-- The disqualifying branch `run.text && run.text.trim()` reached when a
run is neither a slidenum field nor a break. -/
def runIsOtherContent (r : Run) : Bool :=
  !(runIsSlideNumField r) && !r.isBreak
    && !(r.text == "") && !(r.text.trim == "")

/-- Whether any run across the paragraphs is a slidenum field. -/
def hasSlideNumFieldIn (paras : List SNPara) : Bool :=
  paras.any (fun p => (p.runs.getD []).any runIsSlideNumField)

/-- Whether any run across the paragraphs is other (disqualifying) content. -/
def hasOtherContentIn (paras : List SNPara) : Bool :=
  paras.any (fun p => (p.runs.getD []).any runIsOtherContent)

/-- The `result.fontSize || 8` default inside the height normalization. -/
def slideNumFontSize (fs : Option ℚ) : ℚ :=
  match fs with
  | some v => if v = 0 then 8 else v
  | none => 8

/-- The minimum height `Math.round(fontSize * 2.5 / 72 * 10000) / 10000`. -/
def slideNumMinHeight (fs : Option ℚ) : ℚ :=
  ((jsRound (slideNumFontSize fs * 2.5 / 72 * 10000) : ℤ) : ℚ) / 10000

/-- `normalizeSlideNumberHeight(result)`: raise `h` to the minimum height. -/
def normalizeSlideNumberHeight (result : SlideNumResult) : SlideNumResult :=
  if result.h < slideNumMinHeight result.fontSize
  then { result with h := slideNumMinHeight result.fontSize }
  else result

/--
`extractSlideNumberFromShape(shape)`: scan every run of every paragraph
for a slidenum field and for disqualifying other content, bail out unless
exactly the field (plus breaks/whitespace) is present, discard zero-size
candidates, then normalize the height.
-/
def extractSlideNumberFromShape (shape : Option SNShape) :
    Option SlideNumResult :=
  match shape with
  | none => none
  | some sh =>
    match sh.textProps with
    | none => none
    | some tp =>
      match tp.paragraphs with
      | none => none
      | some paras =>
        if !(hasSlideNumFieldIn paras) || hasOtherContentIn paras then none
        else
          let pos := sh.position.getD ⟨0, 0, 0, 0⟩
          if pos.w = 0 ∧ pos.h = 0 then none
          else
            some (normalizeSlideNumberHeight
              { x := pos.x, y := pos.y, w := pos.w, h := pos.h,
                fontSize := tp.textOpts.fontSize })

-- ## Limited palette detection (src/src/generator/preview.js)

/-- JS `hex.replace('#', '')`: removes the first `#` occurrence only. -/
def removeFirstHash : List Char → List Char
  | [] => []
  | c :: cs => if c = '#' then cs else c :: removeFirstHash cs

/-- String wrapper for `removeFirstHash`. -/
def stripHash (s : String) : String := String.mk (removeFirstHash s.toList)

/--
`hexBrightness(hex)`: luma-weighted brightness `r*0.299 + g*0.587 +
b*0.114` on the 0-255 scale. Strings shorter than 6 after `#` removal
yield 0 as in the source; 6+ character strings that fail hex parsing
(where JS produces NaN, which fails every later comparison) yield `none`.
-/
def hexBrightness (hex : String) : Option ℚ :=
  let clean := stripHash hex
  if clean.length < 6 then some 0
  else
    match hexToRgb clean with
    | some (r, g, b) =>
      some ((r : ℚ) * 0.299 + (g : ℚ) * 0.587 + (b : ℚ) * 0.114)
    | none => none

/-- The non-neutral filter `b <= 245 && b >= 10` applied per accent. -/
def isUsableAccent (hex : String) : Bool :=
  match hexBrightness hex with
  | some b => decide (b ≤ 245) && decide (10 ≤ b)
  | none => false

/-- The six accent slots scanned by `detectLimitedPalette`. -/
def accentSlots : List String :=
  ["accent1", "accent2", "accent3", "accent4", "accent5", "accent6"]

/-- The `accents.filter(...)` pipeline: present (`filter(Boolean)`) accent
values that are not neutral. -/
def nonNeutralAccents (tc : String → Option String) : List String :=
  ((accentSlots.filterMap tc).filter (fun s => !(s == ""))).filter isUsableAccent

/-- `[...new Set(list)]`: first-occurrence de-duplication. -/
def uniqFirstAux : List String → List String → List String
  | _, [] => []
  | seen, x :: xs =>
    if x ∈ seen then uniqFirstAux seen xs
    else x :: uniqFirstAux (x :: seen) xs

/-- First-occurrence de-duplication starting from an empty seen set. -/
def uniqFirst (l : List String) : List String := uniqFirstAux [] l

/--
`detectLimitedPalette(themeColors)`: collect present accent values, drop
neutrals, de-duplicate, and report `isLimited` exactly when fewer than two
distinct usable accents remain (`usableAccents` is the unique list).
-/
def detectLimitedPalette (themeColors : Option (String → Option String)) :
    Bool × List String :=
  match themeColors with
  | none => (false, [])
  | some tc =>
    let unique := uniqFirst (nonNeutralAccents tc)
    (decide (unique.length < 2), unique)

/-- A two-accent theme used to witness the not-limited direction. -/
def twoAccentTheme : String → Option String := fun k =>
  if k = "accent1" then some "4472C4"
  else if k = "accent2" then some "FF0000"
  else none

-- ## Object de-duplication (src/src/mapper/placeholders.js, deduplicateObjects)

/-- A text object's content and geometry (the `options` subobject's
coordinates are inlined; each may be absent). -/
structure TextPayload where
  text : Option String := none
  x : Option ℚ := none
  y : Option ℚ := none
  w : Option ℚ := none
  h : Option ℚ := none
deriving DecidableEq

/-- An image object's path and geometry. -/
structure ImagePayload where
  path : Option String := none
  x : Option ℚ := none
  y : Option ℚ := none
  w : Option ℚ := none
  h : Option ℚ := none
deriving DecidableEq

/-- A rect object's geometry. -/
structure RectPayload where
  x : Option ℚ := none
  y : Option ℚ := none
  w : Option ℚ := none
  h : Option ℚ := none
deriving DecidableEq

/-- A pipeline object. A present `placeholder` key holds the placeholder
payload (always a truthy object in the source; represented by a token). -/
structure SlideObject where
  placeholder : Option String := none
  text : Option TextPayload := none
  image : Option ImagePayload := none
  rect : Option RectPayload := none
deriving DecidableEq

/-- `round2(n)`: `n != null ? Math.round(n * 100) / 100 : ''` — the absent
marker `''` is kept distinct from every number as `none`. -/
def round2 (n : Option ℚ) : Option ℚ :=
  n.map (fun v => ((jsRound (v * 100) : ℤ) : ℚ) / 100)

/--
The dedup key template strings `text:...`, `image:...`, `rect:...` in
structured form. The three prefixes differ, the tail always holds exactly
four coordinate renderings (a JS number or the empty marker), and JS
number formatting is injective, so equality of the source's key strings
coincides with equality of this structured key.
-/
inductive DedupKey where
  | text (t : String) (x y w h : Option ℚ)
  | image (path : String) (x y w h : Option ℚ)
  | rect (x y w h : Option ℚ)
deriving DecidableEq

/-- Key construction for a non-placeholder object: text wins over image
wins over rect; an object with none of the three gets no key. -/
def dedupKey (obj : SlideObject) : Option DedupKey :=
  match obj.text with
  | some t =>
    some (DedupKey.text (jsOr t.text "")
      (round2 t.x) (round2 t.y) (round2 t.w) (round2 t.h))
  | none =>
    match obj.image with
    | some im =>
      some (DedupKey.image (jsOr im.path "")
        (round2 im.x) (round2 im.y) (round2 im.w) (round2 im.h))
    | none =>
      match obj.rect with
      | some rc =>
        some (DedupKey.rect
          (round2 rc.x) (round2 rc.y) (round2 rc.w) (round2 rc.h))
      | none => none

/-- The loop of `deduplicateObjects` with the `seen` set (modelled as a
list, membership only). -/
def dedupAux : List DedupKey → List SlideObject → List SlideObject
  | _, [] => []
  | seen, obj :: rest =>
    if obj.placeholder.isSome then obj :: dedupAux seen rest
    else
      match dedupKey obj with
      | some k =>
        if k ∈ seen then dedupAux seen rest
        else obj :: dedupAux (k :: seen) rest
      | none => obj :: dedupAux seen rest

/-- `deduplicateObjects(objects)`. -/
def deduplicateObjects (objects : List SlideObject) : List SlideObject :=
  dedupAux [] objects

/-- The keys of the non-placeholder objects in a scanned prefix. -/
def prevKeys (prev : List SlideObject) : List DedupKey :=
  prev.filterMap (fun o => if o.placeholder.isSome then none else dedupKey o)

/--
Modelled from claim C9's words: placeholders are always kept; a text,
image or rect object is dropped exactly when its key matches the key of an
earlier text/image/rect object; `prev` holds every object already scanned.
-/
def dedupClaimSpec (prev : List SlideObject) :
    List SlideObject → List SlideObject
  | [] => []
  | obj :: rest =>
    if obj.placeholder.isSome then obj :: dedupClaimSpec (prev ++ [obj]) rest
    else
      match dedupKey obj with
      | some k =>
        if k ∈ prevKeys prev then dedupClaimSpec (prev ++ [obj]) rest
        else obj :: dedupClaimSpec (prev ++ [obj]) rest
      | none => obj :: dedupClaimSpec (prev ++ [obj]) rest

-- ## Relative path resolution (src/unnamed/part_003, resolveRelPath)

/-- Characters before the last `/`, or `none` when there is no slash:
the char-level counterpart of `basePath.slice(0, lastIndexOf('/'))`. -/
def baseDirChars : List Char → Option (List Char)
  | [] => none
  | c :: cs =>
    match baseDirChars cs with
    | some tail => some (c :: tail)
    | none => if c = '/' then some [] else none

/-- `baseDir`: the directory part of the base path (`''` when none). -/
def baseDirOf (basePath : String) : String :=
  match baseDirChars basePath.toList with
  | some cs => String.mk cs
  | none => ""

/-- JS `split('/')` on char lists: consecutive separators produce empty
segments and the empty string splits to `[""]`. -/
def splitCharsAux : List Char → List Char → List String
  | [], acc => [String.mk acc.reverse]
  | c :: cs, acc =>
    if c = '/' then String.mk acc.reverse :: splitCharsAux cs []
    else splitCharsAux cs (c :: acc)

/-- `s.split('/')`. -/
def splitOnSlash (s : String) : List String := splitCharsAux s.toList []

/-- The segment loop of `resolveRelPath`: `'..'` pops the stack (a silent
no-op when the stack is already empty), `'.'` and `''` are skipped, and
any other segment is pushed. -/
def processSegments (segments : List String) : List String → List String
  | [] => segments
  | seg :: rest =>
    if seg = ".." then processSegments segments.dropLast rest
    else if seg = "." ∨ seg = "" then processSegments segments rest
    else processSegments (segments ++ [seg]) rest

/--
`resolveRelPath(basePath, relTarget)`: an absolute target drops its
leading slash; otherwise the base directory's segments are combined with
the relative segments through the `..`/`.` stack walk and re-joined.
-/
def resolveRelPath (basePath relTarget : String) : String :=
  match relTarget.toList with
  | '/' :: rest => String.mk rest
  | _ =>
    let baseDir := baseDirOf basePath
    let segments := if baseDir ≠ "" then splitOnSlash baseDir else []
    let relSegments := splitOnSlash relTarget
    String.intercalate "/" (processSegments segments relSegments)

-- ## Theorems

/-- `jsRound` of an integer is that integer. -/
theorem jsRound_intCast (n : ℤ) : jsRound (n : ℚ) = n := by
  unfold jsRound
  rw [Int.floor_eq_iff]
  constructor
  · norm_num
  · norm_num

/-- On `[1/6, 1/2]` (no wrap), `hue2rgb` returns `q`. -/
theorem hue2rgb_eq_q (p q t : ℚ) (h1 : 1/6 ≤ t) (h2 : t ≤ 1/2) :
    hue2rgb p q t = q := by
  unfold hue2rgb
  have hn : ¬ t < 0 := by linarith
  have hg : ¬ t > 1 := by linarith
  simp only [if_neg hn, if_neg hg]
  have h3 : ¬ t < 1/6 := by linarith
  rw [if_neg h3]
  by_cases h4 : t < 1/2
  · rw [if_pos h4]
  · have ht : t = 1/2 := by linarith
    have h5 : t < 2/3 := by rw [ht]; norm_num
    rw [if_neg h4, if_pos h5, ht]
    ring

/-- On `[2/3, 1]` (no wrap), `hue2rgb` returns `p`. -/
theorem hue2rgb_eq_p (p q t : ℚ) (h1 : 2/3 ≤ t) (h2 : t ≤ 1) :
    hue2rgb p q t = p := by
  unfold hue2rgb
  have hn : ¬ t < 0 := by linarith
  have hg : ¬ t > 1 := by linarith
  simp only [if_neg hn, if_neg hg]
  have h3 : ¬ t < 1/6 := by linarith
  have h4 : ¬ t < 1/2 := by linarith
  have h5 : ¬ t < 2/3 := by linarith
  rw [if_neg h3, if_neg h4, if_neg h5]

/-- On `[0, 1/6]` (no wrap), `hue2rgb` follows the first linear ramp. -/
theorem hue2rgb_lin1 (p q t : ℚ) (h1 : 0 ≤ t) (h2 : t ≤ 1/6) :
    hue2rgb p q t = p + (q - p) * 6 * t := by
  unfold hue2rgb
  have hn : ¬ t < 0 := by linarith
  have hg : ¬ t > 1 := by linarith
  simp only [if_neg hn, if_neg hg]
  by_cases h3 : t < 1/6
  · rw [if_pos h3]
  · have ht : t = 1/6 := by linarith
    have h4 : t < 1/2 := by rw [ht]; norm_num
    rw [if_neg h3, if_pos h4, ht]
    ring

/-- On `[1/2, 2/3]` (no wrap), `hue2rgb` follows the descending ramp. -/
theorem hue2rgb_lin2 (p q t : ℚ) (h1 : 1/2 ≤ t) (h2 : t ≤ 2/3) :
    hue2rgb p q t = p + (q - p) * (2/3 - t) * 6 := by
  unfold hue2rgb
  have hn : ¬ t < 0 := by linarith
  have hg : ¬ t > 1 := by linarith
  simp only [if_neg hn, if_neg hg]
  have h3 : ¬ t < 1/6 := by linarith
  have h4 : ¬ t < 1/2 := by linarith
  rw [if_neg h3, if_neg h4]
  by_cases h5 : t < 2/3
  · rw [if_pos h5]
  · have ht : t = 2/3 := by linarith
    rw [if_neg h5, ht]
    ring

/-- A negative `t` in `[-1, 0)` is wrapped up by one turn. -/
theorem hue2rgb_add_one (p q t : ℚ) (h1 : -1 ≤ t) (h2 : t < 0) :
    hue2rgb p q t = hue2rgb p q (t + 1) := by
  unfold hue2rgb
  have e2 : ¬ t + 1 > 1 := by linarith
  have e3 : ¬ t + 1 < 0 := by linarith
  simp only [if_pos h2, if_neg e2, if_neg e3]

/-- A `t` in `(1, 2]` is wrapped down by one turn. -/
theorem hue2rgb_sub_one (p q t : ℚ) (h1 : 1 < t) (h2 : t ≤ 2) :
    hue2rgb p q t = hue2rgb p q (t - 1) := by
  unfold hue2rgb
  have e1 : ¬ t < 0 := by linarith
  have e3 : ¬ t - 1 < 0 := by linarith
  have e4 : ¬ t - 1 > 1 := by linarith
  simp only [if_neg e1, if_pos h1, if_neg e3, if_neg e4]

/-- Rounding a normalized channel scaled back to 0-255 recovers the byte. -/
theorem jsRound_norm (x : ℤ) : jsRound ((x : ℚ) / 255 * 255) = x := by
  have h : ((x : ℚ) / 255) * 255 = (x : ℚ) := by field_simp
  rw [h, jsRound_intCast]

set_option maxHeartbeats 1600000 in
/--
The exact-arithmetic HSL round trip: converting an RGB byte triple to HSL
with `rgbToHsl` and back with `hslToRgb` returns the original triple.
-/
theorem hslToRgb_rgbToHsl (r g b : ℤ)
    (hr0 : 0 ≤ r) (hr1 : r ≤ 255) (hg0 : 0 ≤ g) (hg1 : g ≤ 255)
    (hb0 : 0 ≤ b) (hb1 : b ≤ 255) :
    hslToRgb (rgbToHsl (r : ℚ) (g : ℚ) (b : ℚ)).1
      (rgbToHsl (r : ℚ) (g : ℚ) (b : ℚ)).2.1
      (rgbToHsl (r : ℚ) (g : ℚ) (b : ℚ)).2.2 = (r, g, b) := by
  simp only [rgbToHsl]
  set R := (r : ℚ) / 255 with hRdef
  set G := (g : ℚ) / 255 with hGdef
  set B := (b : ℚ) / 255 with hBdef
  have hR0 : 0 ≤ R := by
    rw [hRdef]
    apply div_nonneg _ (by norm_num)
    exact_mod_cast hr0
  have hG0 : 0 ≤ G := by
    rw [hGdef]
    apply div_nonneg _ (by norm_num)
    exact_mod_cast hg0
  have hB0 : 0 ≤ B := by
    rw [hBdef]
    apply div_nonneg _ (by norm_num)
    exact_mod_cast hb0
  have hR1 : R ≤ 1 := by
    rw [hRdef, div_le_one (by norm_num : (0:ℚ) < 255)]
    exact_mod_cast hr1
  have hG1 : G ≤ 1 := by
    rw [hGdef, div_le_one (by norm_num : (0:ℚ) < 255)]
    exact_mod_cast hg1
  have hB1 : B ≤ 1 := by
    rw [hBdef, div_le_one (by norm_num : (0:ℚ) < 255)]
    exact_mod_cast hb1
  set mx := max R (max G B) with hmx
  set mn := min R (min G B) with hmn
  have hRle : R ≤ mx := by rw [hmx]; exact le_max_left _ _
  have hGle : G ≤ mx := by
    rw [hmx]; exact le_trans (le_max_left G B) (le_max_right R (max G B))
  have hBle : B ≤ mx := by
    rw [hmx]; exact le_trans (le_max_right G B) (le_max_right R (max G B))
  have hleR : mn ≤ R := by rw [hmn]; exact min_le_left _ _
  have hleG : mn ≤ G := by
    rw [hmn]; exact le_trans (min_le_right R (min G B)) (min_le_left G B)
  have hleB : mn ≤ B := by
    rw [hmn]; exact le_trans (min_le_right R (min G B)) (min_le_right G B)
  have hmn0 : 0 ≤ mn := by rw [hmn]; exact le_min hR0 (le_min hG0 hB0)
  have hmx1 : mx ≤ 1 := by rw [hmx]; exact max_le hR1 (max_le hG1 hB1)
  have hmnmx : mn ≤ mx := le_trans hleR hRle
  set L := (mx + mn) / 2 with hLdef
  set d := mx - mn with hd
  set S := if L > 1/2 then d / (2 - mx - mn) else d / (mx + mn) with hSdef
  set H := if mx = R then ((G - B) / d + if G < B then (6 : ℚ) else 0) / 6
    else if mx = G then ((B - R) / d + 2) / 6
    else ((R - G) / d + 4) / 6 with hHdef
  by_cases hc : mx = mn
  · -- achromatic: all three channels coincide
    rw [if_pos hc]
    dsimp only
    have hRx : R = mx := by linarith
    have hGx : G = mx := by linarith
    have hBx : B = mx := by linarith
    have hrg : r = g := by
      have h' : (r : ℚ) / 255 = (g : ℚ) / 255 := by
        rw [← hRdef, ← hGdef]; linarith
      field_simp at h'
      exact_mod_cast h'
    have hrb : r = b := by
      have h' : (r : ℚ) / 255 = (b : ℚ) / 255 := by
        rw [← hRdef, ← hBdef]; linarith
      field_simp at h'
      exact_mod_cast h'
    have hL : L = R := by rw [hLdef]; linarith
    unfold hslToRgb
    rw [if_pos rfl]
    rw [hL, hRdef]
    simp only [Prod.mk.injEq]
    refine ⟨jsRound_norm r, ?_, ?_⟩
    · rw [jsRound_norm r]; exact hrg
    · rw [jsRound_norm r]; exact hrb
  · -- chromatic
    rw [if_neg hc]
    dsimp only
    have hlt : mn < mx := lt_of_le_of_ne hmnmx (fun h => hc h.symm)
    have hd0 : 0 < d := by rw [hd]; linarith
    have hdne : d ≠ 0 := ne_of_gt hd0
    have hmnlt1 : mn < 1 := lt_of_lt_of_le hlt hmx1
    have hmxpos : 0 < mx := lt_of_le_of_lt hmn0 hlt
    have hS0 : 0 < S := by
      rw [hSdef]
      by_cases hgt : L > 1/2
      · rw [if_pos hgt]
        apply div_pos hd0
        rw [hLdef] at hgt
        linarith
      · rw [if_neg hgt]
        apply div_pos hd0
        linarith
    unfold hslToRgb
    rw [if_neg (ne_of_gt hS0)]
    have h360 : H * 360 / 360 = H := by field_simp
    rw [h360]
    have hQ : (if L < 1/2 then L * (1 + S) else L + S - L * S) = mx := by
      rw [hSdef]
      by_cases h1 : L > 1/2
      · have h2 : ¬ L < 1/2 := by linarith
        rw [if_neg h2, if_pos h1]
        have hne : (2 : ℚ) - mx - mn ≠ 0 := by
          rw [hLdef] at h1; intro hz; linarith
        rw [hLdef, hd]
        field_simp
        ring
      · by_cases h2 : L < 1/2
        · rw [if_pos h2, if_neg h1]
          have hne : mx + mn ≠ 0 := by intro hz; linarith
          rw [hLdef, hd]
          field_simp
          ring
        · have hLeq : L = 1/2 := by linarith
          have hsum : mx + mn = 1 := by rw [hLdef] at hLeq; linarith
          rw [if_neg h2, if_neg h1, hLeq, hd, hsum]
          have hmneq : mn = 1 - mx := by linarith
          rw [hmneq]
          ring
    rw [hQ]
    dsimp only
    have hP : 2 * L - mx = mn := by rw [hLdef]; ring
    rw [hP]
    simp only [Prod.mk.injEq]
    by_cases hxR : mx = R
    · -- max is the red channel
      by_cases hGB : G < B
      · -- min is the green channel
        have hmnG : mn = G := by
          rw [hmn, min_eq_left (le_of_lt hGB)]
          exact min_eq_right (by rw [← hxR]; exact hGle)
        have hHval : H = ((G - B) / d + 6) / 6 := by
          rw [hHdef, if_pos hxR, if_pos hGB]
        have hu2 : -1 ≤ (G - B) / d := by
          rw [le_div_iff₀ hd0, hd, hmnG]
          linarith
        have hu3 : (G - B) / d < 0 :=
          div_neg_of_neg_of_pos (by linarith) hd0
        have hH1 : 5/6 ≤ H := by rw [hHval]; linarith
        have hH2 : H < 1 := by rw [hHval]; linarith
        refine ⟨?_, ?_, ?_⟩
        · rw [hue2rgb_sub_one mn mx (H + 1/3) (by linarith) (by linarith)]
          rw [hue2rgb_eq_q mn mx (H + 1/3 - 1) (by linarith) (by linarith)]
          rw [hxR, hRdef]
          exact jsRound_norm r
        · rw [hue2rgb_eq_p mn mx H (by linarith) (by linarith)]
          rw [hmnG, hGdef]
          exact jsRound_norm g
        · rw [hue2rgb_lin2 mn mx (H - 1/3) (by linarith) (by linarith)]
          have hval : mn + (mx - mn) * (2/3 - (H - 1/3)) * 6 = B := by
            rw [← hd, hmnG, hHval]
            field_simp
            ring
          rw [hval, hBdef]
          exact jsRound_norm b
      · -- min is the blue channel
        have hBG : B ≤ G := le_of_not_lt hGB
        have hmnB : mn = B := by
          rw [hmn, min_eq_right hBG]
          exact min_eq_right (by rw [← hxR]; exact hBle)
        have hHval : H = (G - B) / d / 6 := by
          rw [hHdef, if_pos hxR, if_neg hGB, add_zero]
        have hu0 : 0 ≤ (G - B) / d := div_nonneg (by linarith) (le_of_lt hd0)
        have hu1 : (G - B) / d ≤ 1 := by
          rw [div_le_one hd0, hd, hmnB]
          linarith
        have hH1 : 0 ≤ H := by rw [hHval]; linarith
        have hH2 : H ≤ 1/6 := by rw [hHval]; linarith
        refine ⟨?_, ?_, ?_⟩
        · rw [hue2rgb_eq_q mn mx (H + 1/3) (by linarith) (by linarith)]
          rw [hxR, hRdef]
          exact jsRound_norm r
        · rw [hue2rgb_lin1 mn mx H (by linarith) (by linarith)]
          have hval : mn + (mx - mn) * 6 * H = G := by
            rw [← hd, hmnB, hHval]
            field_simp
          rw [hval, hGdef]
          exact jsRound_norm g
        · rw [hue2rgb_add_one mn mx (H - 1/3) (by linarith) (by linarith)]
          rw [hue2rgb_eq_p mn mx (H - 1/3 + 1) (by linarith) (by linarith)]
          rw [hmnB, hBdef]
          exact jsRound_norm b
    · by_cases hxG : mx = G
      · -- max is the green channel
        have hRlt : R < mx := lt_of_le_of_ne hRle (fun h => hxR h.symm)
        have hHval : H = ((B - R) / d + 2) / 6 := by
          rw [hHdef, if_neg hxR, if_pos hxG]
        by_cases hRB : R ≤ B
        · -- min is the red channel
          have hmnR : mn = R := by
            rw [hmn]
            exact min_eq_left (le_min (by rw [hxG] at hRlt; exact le_of_lt hRlt) hRB)
          have hu0 : 0 ≤ (B - R) / d := div_nonneg (by linarith) (le_of_lt hd0)
          have hu1 : (B - R) / d ≤ 1 := by
            rw [div_le_one hd0, hd, hmnR]
            linarith
          have hH1 : 1/3 ≤ H := by rw [hHval]; linarith
          have hH2 : H ≤ 1/2 := by rw [hHval]; linarith
          refine ⟨?_, ?_, ?_⟩
          · rw [hue2rgb_eq_p mn mx (H + 1/3) (by linarith) (by linarith)]
            rw [hmnR, hRdef]
            exact jsRound_norm r
          · rw [hue2rgb_eq_q mn mx H (by linarith) (by linarith)]
            rw [hxG, hGdef]
            exact jsRound_norm g
          · rw [hue2rgb_lin1 mn mx (H - 1/3) (by linarith) (by linarith)]
            have hval : mn + (mx - mn) * 6 * (H - 1/3) = B := by
              rw [← hd, hmnR, hHval]
              field_simp
              ring
            rw [hval, hBdef]
            exact jsRound_norm b
        · -- min is the blue channel
          have hBR : B < R := lt_of_not_le hRB
          have hBG' : B ≤ G := by rw [← hxG]; exact hBle
          have hmnB : mn = B := by
            rw [hmn, min_eq_right hBG']
            exact min_eq_right (le_of_lt hBR)
          have hu2 : -1 < (B - R) / d := by
            rw [lt_div_iff₀ hd0, hd, hmnB]
            linarith
          have hu3 : (B - R) / d < 0 :=
            div_neg_of_neg_of_pos (by linarith) hd0
          have hH1 : 1/6 < H := by rw [hHval]; linarith
          have hH2 : H < 1/3 := by rw [hHval]; linarith
          refine ⟨?_, ?_, ?_⟩
          · rw [hue2rgb_lin2 mn mx (H + 1/3) (by linarith) (by linarith)]
            have hval : mn + (mx - mn) * (2/3 - (H + 1/3)) * 6 = R := by
              rw [← hd, hmnB, hHval]
              field_simp
              ring
            rw [hval, hRdef]
            exact jsRound_norm r
          · rw [hue2rgb_eq_q mn mx H (by linarith) (by linarith)]
            rw [hxG, hGdef]
            exact jsRound_norm g
          · rw [hue2rgb_add_one mn mx (H - 1/3) (by linarith) (by linarith)]
            rw [hue2rgb_eq_p mn mx (H - 1/3 + 1) (by linarith) (by linarith)]
            rw [hmnB, hBdef]
            exact jsRound_norm b
      · -- max is the blue channel
        have hxB : mx = B := by
          rcases max_choice R (max G B) with h | h
          · exact absurd (hmx.trans h) hxR
          · rcases max_choice G B with h2 | h2
            · exact absurd (hmx.trans (h.trans h2)) hxG
            · exact hmx.trans (h.trans h2)
        have hRlt : R < mx := lt_of_le_of_ne hRle (fun h => hxR h.symm)
        have hGlt : G < mx := lt_of_le_of_ne hGle (fun h => hxG h.symm)
        have hHval : H = ((R - G) / d + 4) / 6 := by
          rw [hHdef, if_neg hxR, if_neg hxG]
        by_cases hGR : G ≤ R
        · -- min is the green channel
          have hGB' : G ≤ B := by rw [← hxB]; exact le_of_lt hGlt
          have hmnG : mn = G := by
            rw [hmn, min_eq_left hGB']
            exact min_eq_right hGR
          have hu0 : 0 ≤ (R - G) / d := div_nonneg (by linarith) (le_of_lt hd0)
          have hu1 : (R - G) / d < 1 := by
            rw [div_lt_one hd0, hd, hmnG]
            linarith
          have hH1 : 2/3 ≤ H := by rw [hHval]; linarith
          have hH2 : H < 5/6 := by rw [hHval]; linarith
          refine ⟨?_, ?_, ?_⟩
          · by_cases ht1 : 1 < H + 1/3
            · rw [hue2rgb_sub_one mn mx (H + 1/3) ht1 (by linarith)]
              rw [hue2rgb_lin1 mn mx (H + 1/3 - 1) (by linarith) (by linarith)]
              have hval : mn + (mx - mn) * 6 * (H + 1/3 - 1) = R := by
                rw [← hd, hmnG, hHval]
                field_simp
                ring
              rw [hval, hRdef]
              exact jsRound_norm r
            · -- H = 2/3 exactly, so R = G and the wrap lands on t = 1
              have hHeq : H = 2/3 := by linarith
              have hRG : R = G := by
                have h' : (R - G) / d = 0 := by
                  rw [hHval] at hHeq
                  have : (R - G) / d + 4 = 4 := by linarith
                  linarith
                have h'' : R - G = 0 := by
                  rcases div_eq_zero_iff.mp h' with h | h
                  · exact h
                  · exact absurd h hdne
                linarith
              rw [hue2rgb_eq_p mn mx (H + 1/3) (by linarith) (by linarith)]
              rw [hmnG, ← hRG, hRdef]
              exact jsRound_norm r
          · rw [hue2rgb_eq_p mn mx H (by linarith) (by linarith)]
            rw [hmnG, hGdef]
            exact jsRound_norm g
          · rw [hue2rgb_eq_q mn mx (H - 1/3) (by linarith) (by linarith)]
            rw [hxB, hBdef]
            exact jsRound_norm b
        · -- min is the red channel
          have hRG : R < G := lt_of_not_le hGR
          have hmnR : mn = R := by
            rw [hmn]
            exact min_eq_left (le_min (le_of_lt hRG) (by rw [← hxB]; exact le_of_lt hRlt))
          have hu2 : -1 < (R - G) / d := by
            rw [lt_div_iff₀ hd0, hd, hmnR]
            linarith
          have hu3 : (R - G) / d < 0 :=
            div_neg_of_neg_of_pos (by linarith) hd0
          have hH1 : 1/2 < H := by rw [hHval]; linarith
          have hH2 : H < 2/3 := by rw [hHval]; linarith
          refine ⟨?_, ?_, ?_⟩
          · rw [hue2rgb_eq_p mn mx (H + 1/3) (by linarith) (by linarith)]
            rw [hmnR, hRdef]
            exact jsRound_norm r
          · rw [hue2rgb_lin2 mn mx H (by linarith) (by linarith)]
            have hval : mn + (mx - mn) * (2/3 - H) * 6 = G := by
              rw [← hd, hmnR, hHval]
              field_simp
              ring
            rw [hval, hGdef]
            exact jsRound_norm g
          · rw [hue2rgb_eq_q mn mx (H - 1/3) (by linarith) (by linarith)]
            rw [hxB, hBdef]
            exact jsRound_norm b

/-- The lightness component produced by `rgbToHsl` is `(max + min) / 2`
of the normalized channels, in both branches. -/
theorem rgbToHsl_l_eq (r0 g0 b0 : ℚ) :
    (rgbToHsl r0 g0 b0).2.2
      = (max (r0/255) (max (g0/255) (b0/255))
          + min (r0/255) (min (g0/255) (b0/255))) / 2 := by
  simp only [rgbToHsl]
  split_ifs <;> rfl

/-- `toHexByte` is the identity on integer channel values already in range. -/
theorem toHexByte_intCast (x : ℤ) (h0 : 0 ≤ x) (h1 : x ≤ 255) :
    toHexByte (x : ℚ) = x := by
  unfold toHexByte
  have hm : min 255 (x : ℚ) = (x : ℚ) := min_eq_right (by exact_mod_cast h1)
  have hM : max 0 (x : ℚ) = (x : ℚ) := max_eq_right (by exact_mod_cast h0)
  rw [hm, hM, jsRound_intCast]

/--
C1: `applyColorModifiers` with `lumMod = 100000` and no other modifier is
the identity on the RGB value of any 6-digit hex color (channels are byte
values 0-255): the RGB→HSL→RGB round trip is exact, multiplying the
lightness by `100000/100000 = 1` changes nothing, the unconditional clamp
of `l` into `[0,1]` is inert there, and the final per-channel clamp-round
of `rgbToHex` returns each original byte.
-/
theorem applyColorModifiers_lumMod_full_identity (r g b : ℤ)
    (hr0 : 0 ≤ r) (hr1 : r ≤ 255) (hg0 : 0 ≤ g) (hg1 : g ≤ 255)
    (hb0 : 0 ≤ b) (hb1 : b ≤ 255) :
    applyColorModifiersRGB (r : ℚ) (g : ℚ) (b : ℚ) { lumMod := some 100000 }
      = (r, g, b) := by
  unfold applyColorModifiersRGB
  dsimp only
  have h1 : ∀ x : ℚ, x * ((100000 : ℚ) / 100000) = x := by
    intro x; norm_num
  rw [h1]
  have hl0 : 0 ≤ (rgbToHsl (r : ℚ) (g : ℚ) (b : ℚ)).2.2 := by
    rw [rgbToHsl_l_eq]
    have hx : (0:ℚ) ≤ (r : ℚ)/255 := by
      apply div_nonneg _ (by norm_num); exact_mod_cast hr0
    have hy : (0:ℚ) ≤ (g : ℚ)/255 := by
      apply div_nonneg _ (by norm_num); exact_mod_cast hg0
    have hz : (0:ℚ) ≤ (b : ℚ)/255 := by
      apply div_nonneg _ (by norm_num); exact_mod_cast hb0
    have := le_min hx (le_min hy hz)
    have h' := le_max_left ((r:ℚ)/255) (max ((g:ℚ)/255) ((b:ℚ)/255))
    linarith
  have hl1 : (rgbToHsl (r : ℚ) (g : ℚ) (b : ℚ)).2.2 ≤ 1 := by
    rw [rgbToHsl_l_eq]
    have hx : (r : ℚ)/255 ≤ 1 := by
      rw [div_le_one (by norm_num : (0:ℚ) < 255)]; exact_mod_cast hr1
    have hy : (g : ℚ)/255 ≤ 1 := by
      rw [div_le_one (by norm_num : (0:ℚ) < 255)]; exact_mod_cast hg1
    have hz : (b : ℚ)/255 ≤ 1 := by
      rw [div_le_one (by norm_num : (0:ℚ) < 255)]; exact_mod_cast hb1
    have hM := max_le hx (max_le hy hz)
    have h' := min_le_left ((r:ℚ)/255) (min ((g:ℚ)/255) ((b:ℚ)/255))
    linarith
  have hcl : clamp01 ((rgbToHsl (r : ℚ) (g : ℚ) (b : ℚ)).2.2)
      = (rgbToHsl (r : ℚ) (g : ℚ) (b : ℚ)).2.2 := by
    unfold clamp01
    rw [min_eq_right hl1, max_eq_right hl0]
  rw [hcl]
  rw [hslToRgb_rgbToHsl r g b hr0 hr1 hg0 hg1 hb0 hb1]
  dsimp only
  simp only [Prod.mk.injEq]
  exact ⟨toHexByte_intCast r hr0 hr1, toHexByte_intCast g hg0 hg1,
    toHexByte_intCast b hb0 hb1⟩

/-- Witness for C1 at the concrete color `4472C4` (68, 114, 196). -/
theorem applyColorModifiers_lumMod_full_identity_witness :
    applyColorModifiersRGB ((68 : ℤ) : ℚ) ((114 : ℤ) : ℚ) ((196 : ℤ) : ℚ)
      { lumMod := some 100000 } = (68, 114, 196) :=
  applyColorModifiers_lumMod_full_identity 68 114 196
    (by decide) (by decide) (by decide) (by decide) (by decide) (by decide)

/--
C2: `resolveSchemeColor` walks name → color-map slot → themeColors, with
the documented fallbacks: a mapped slot that exists wins; a name missing
from the map is used itself as the slot; a slot miss retries the original
name directly in themeColors; and when everything misses the literal
string `"000000"` is returned. The function is total (never throws).
-/
theorem resolveSchemeColor_fallback_chain (tc cm : String → Option String)
    (n s h : String) :
    (cm n = some s → s ≠ "" → tc s = some h → h ≠ "" →
       resolveSchemeColor tc cm n = h)
    ∧ (cm n = none → resolveSchemeColor tc cm n = jsOr (tc n) "000000")
    ∧ (jsTruthy (tc (jsOr (cm n) n)) = false →
       resolveSchemeColor tc cm n = jsOr (tc n) "000000")
    ∧ (jsTruthy (tc (jsOr (cm n) n)) = false → jsTruthy (tc n) = false →
       resolveSchemeColor tc cm n = "000000") := by
  refine ⟨?_, ?_, ?_, ?_⟩
  · intro h1 h2 h3 h4
    simp [resolveSchemeColor, jsOr, jsTruthy, h1, h2, h3, h4]
  · intro h1
    cases htc : tc n with
    | none => simp [resolveSchemeColor, jsTruthy, jsOr, h1, htc]
    | some v =>
      by_cases hv : v = "" <;>
        simp [resolveSchemeColor, jsTruthy, jsOr, h1, htc, hv]
  · intro hmiss
    simp only [resolveSchemeColor, hmiss]
    simp
  · intro hmiss hmiss2
    simp only [resolveSchemeColor, hmiss]
    cases htc : tc n with
    | none => simp [jsOr]
    | some v =>
      rw [htc] at hmiss2
      simp [jsTruthy] at hmiss2
      simp [jsOr, hmiss2]

/-- Witness for C2: the spec's own example map and theme, plus an unknown
scheme name falling through every lookup. -/
theorem resolveSchemeColor_fallback_chain_witness :
    resolveSchemeColor (fun x => if x = "dk1" then some "000000" else none)
      (fun x => if x = "tx1" then some "dk1" else none) "tx1" = "000000"
    ∧ resolveSchemeColor (fun x => if x = "dk1" then some "000000" else none)
      (fun x => if x = "tx1" then some "dk1" else none) "unknownScheme"
        = "000000" :=
  ⟨(resolveSchemeColor_fallback_chain _ _ "tx1" "dk1" "000000").1
      (by decide) (by decide) (by decide) (by decide),
   (resolveSchemeColor_fallback_chain
      (fun x => if x = "dk1" then some "000000" else none)
      (fun x => if x = "tx1" then some "dk1" else none)
      "unknownScheme" "" "").2.2.2 (by decide) (by decide)⟩

/--
C3 counterexample: a `a:sysClr` element carrying `lastClr="FFFFFF"` and a
`lumMod=0` modifier child resolves to `FFFFFF` unchanged — the sysClr
branch never applies modifiers — although the claimed modifier application
would have produced pure black (`applyColorModifiers` of white with
`lumMod=0` is `000000`).
-/
theorem resolve_sysClr_ignores_modifiers_counterexample :
    resolve (fun _ => none) (fun _ => none)
        (some { sysClr := some { lastClr := some "FFFFFF",
                                 mods := { lumMod := some 0 } } })
      = some { color := "FFFFFF", transparency := none }
    ∧ applyColorModifiersHex "FFFFFF" { lumMod := some 0 } = "000000" := by
  constructor
  · rfl
  · have h1 : hexToRgb "FFFFFF" = some (255, 255, 255) := by decide
    unfold applyColorModifiersHex
    rw [h1]
    dsimp only
    have h2 : applyColorModifiersRGB ((255 : ℤ) : ℚ) ((255 : ℤ) : ℚ)
        ((255 : ℤ) : ℚ) { lumMod := some 0 } = (0, 0, 0) := by
      unfold applyColorModifiersRGB
      dsimp only
      have hhsl : rgbToHsl ((255 : ℤ) : ℚ) ((255 : ℤ) : ℚ) ((255 : ℤ) : ℚ)
          = (0, 0, 1) := by
        unfold rgbToHsl
        norm_num
      rw [hhsl]
      dsimp only
      have hl : clamp01 ((1 : ℚ) * (0 / 100000)) = 0 := by
        unfold clamp01; norm_num
      rw [hl]
      have hrgb : hslToRgb 0 0 0 = (0, 0, 0) := by
        unfold hslToRgb jsRound
        norm_num
      rw [hrgb]
      have hbyte : toHexByte ((0 : ℤ) : ℚ) = 0 := by
        unfold toHexByte jsRound
        norm_num
      rw [show (((0, 0, 0) : ℤ × ℤ × ℤ).1 : ℚ) = ((0 : ℤ) : ℚ) from rfl]
      rw [show (((0, 0, 0) : ℤ × ℤ × ℤ).2.1 : ℚ) = ((0 : ℤ) : ℚ) from rfl]
      rw [show (((0, 0, 0) : ℤ × ℤ × ℤ).2.2 : ℚ) = ((0 : ℤ) : ℚ) from rfl]
      rw [hbyte]
    rw [h2]
    decide

/--
C3 amended: `resolve` applies `applyColorModifiers` to the base color for
srgbClr, schemeClr (non-`phClr`) and prstClr elements whenever a
color-altering modifier child is present; a `a:sysClr` element instead
resolves to its `lastClr` value (default `"000000"`) with no modifier
application and no transparency, regardless of any modifier children.
-/
theorem resolve_modifier_application (tc cm : String → Option String)
    (s : SrgbClrEl) (sc : SchemeClrEl) (sys : SysClrEl) (pr : PrstClrEl) :
    (hasModifiers s.mods = true →
      resolve tc cm (some { srgbClr := some s })
        = some { color := applyColorModifiersHex (jsOr s.val "000000") s.mods,
                 transparency := s.mods.alpha.map alphaToTransparency })
    ∧ (sc.val ≠ "phClr" → hasModifiers sc.mods = true →
      resolve tc cm (some { schemeClr := some sc })
        = some { color := applyColorModifiersHex
                   (resolveSchemeColor tc cm sc.val) sc.mods,
                 transparency := sc.mods.alpha.map alphaToTransparency })
    ∧ (resolve tc cm (some { sysClr := some sys })
        = some { color := jsOr sys.lastClr "000000", transparency := none })
    ∧ (hasModifiers pr.mods = true →
      resolve tc cm (some { prstClr := some pr })
        = some { color := applyColorModifiersHex
                   (jsOr (pr.val.bind (fun nm => PRESET_COLORS.lookup nm))
                     "000000") pr.mods,
                 transparency := pr.mods.alpha.map alphaToTransparency }) := by
  refine ⟨?_, ?_, ?_, ?_⟩
  · intro h1
    simp [resolve, resolveSrgbClr, h1]
  · intro h1 h2
    simp [resolve, resolveSchemeClrElement, h1, h2]
  · simp [resolve]
  · intro h1
    simp [resolve, resolvePrstClr, h1]

/-- Witness for C3's amended theorem: a concrete srgbClr with a shade
modifier goes through `applyColorModifiers`. -/
theorem resolve_modifier_application_witness :
    resolve (fun _ => none) (fun _ => none)
        (some { srgbClr := some { val := some "FF0000",
                                  mods := { shade := some 50000 } } })
      = some { color := applyColorModifiersHex "FF0000" { shade := some 50000 },
               transparency := none } := by
  have h := (resolve_modifier_application (fun _ => none) (fun _ => none)
      { val := some "FF0000", mods := { shade := some 50000 } }
      { val := "a" } { } { }).1 (by decide)
  simpa [jsOr] using h

/--
C4 counterexample: a `schemeClr` element whose value is the `phClr`
sentinel carrying an `alpha=50000` child resolves to `{ color: '000000' }`
with no transparency key at all, although the claim demands
`transparency = round(100 - 50000/1000) = 50` whenever alpha is present.
-/
theorem resolve_phClr_alpha_no_transparency_counterexample :
    resolve (fun _ => none) (fun _ => none)
        (some { schemeClr := some { val := "phClr",
                                    mods := { alpha := some 50000 } } })
      = some { color := "000000", transparency := none }
    ∧ alphaToTransparency 50000 = 50 := by
  constructor
  · rfl
  · unfold alphaToTransparency jsRound
    norm_num

/--
C4 amended: for srgbClr and non-`phClr` schemeClr elements, a present
alpha child yields `transparency = round(100 - alpha/1000)` (so 100000 ↦ 0
and 0 ↦ 100) and an absent alpha yields a result with no transparency key;
the `phClr` sentinel resolves with no transparency even when alpha is
present (and the sysClr branch, per C3's theorem, never carries one).
-/
theorem resolve_alpha_transparency (tc cm : String → Option String)
    (s : SrgbClrEl) (sc : SchemeClrEl) (a : ℚ) :
    (s.mods.alpha = some a →
       (resolveSrgbClr s).transparency = some (alphaToTransparency a))
    ∧ (s.mods.alpha = none → (resolveSrgbClr s).transparency = none)
    ∧ (sc.val ≠ "phClr" → sc.mods.alpha = some a →
       (resolveSchemeClrElement tc cm sc).transparency
         = some (alphaToTransparency a))
    ∧ (sc.val ≠ "phClr" → sc.mods.alpha = none →
       (resolveSchemeClrElement tc cm sc).transparency = none)
    ∧ (sc.val = "phClr" →
       (resolveSchemeClrElement tc cm sc).transparency = none)
    ∧ alphaToTransparency 100000 = 0 ∧ alphaToTransparency 0 = 100 := by
  refine ⟨?_, ?_, ?_, ?_, ?_,
    (by unfold alphaToTransparency jsRound; norm_num),
    (by unfold alphaToTransparency jsRound; norm_num)⟩
  · intro h1
    simp [resolveSrgbClr, h1]
  · intro h1
    simp [resolveSrgbClr, h1]
  · intro h1 h2
    simp [resolveSchemeClrElement, h1, h2]
  · intro h1 h2
    simp [resolveSchemeClrElement, h1, h2]
  · intro h1
    simp [resolveSchemeClrElement, h1]

/-- Witness for C4's amended theorem at alpha 100000 (transparency 0) and
alpha absent (no transparency key). -/
theorem resolve_alpha_transparency_witness :
    (resolveSrgbClr
        { val := some "FF0000", mods := { alpha := some 100000 } }).transparency
      = some 0
    ∧ (resolveSrgbClr { val := some "FF0000" }).transparency = none := by
  constructor
  · have h := (resolve_alpha_transparency (fun _ => none) (fun _ => none)
      { val := some "FF0000", mods := { alpha := some 100000 } }
      { val := "a" } 100000).1 rfl
    rw [h]
    norm_num [alphaToTransparency, jsRound]
  · exact (resolve_alpha_transparency (fun _ => none) (fun _ => none)
      { val := some "FF0000" } { val := "a" } 0).2.1 rfl

/-- Interleaving zero breaks is the identity. -/
theorem interleaveBreaks_zero (runs : List Run) :
    interleaveBreaks runs 0 = runs := by
  induction runs with
  | nil => rfl
  | cons r rest ih => simp [interleaveBreaks, ih]

/-- Cells `2i` and `2i+1` of the interleaving hold run `i` and a break,
for `i` below the break count. -/
theorem interleaveBreaks_get_lt (runs : List Run) (k i : ℕ)
    (hik : i < k) (hil : i < runs.length) :
    (interleaveBreaks runs k).get? (2 * i) = runs.get? i
    ∧ (interleaveBreaks runs k).get? (2 * i + 1) = some breakRun := by
  induction runs generalizing k i with
  | nil => simp at hil
  | cons r rest ih =>
    match k, i with
    | 0, _ => omega
    | Nat.succ k', 0 =>
      constructor <;> rfl
    | Nat.succ k', Nat.succ j =>
      have h2 : 2 * Nat.succ j = (2 * j).succ.succ := by omega
      have h3 : 2 * Nat.succ j + 1 = (2 * j + 1).succ.succ := by omega
      rw [h3, h2]
      simp only [interleaveBreaks, List.get?]
      exact ih k' j (by omega) (by simpa using hil)

/-- Cell `k + i` of the interleaving holds run `i`, for `i` at or beyond
the break count `k` (with `k` at most the run count). -/
theorem interleaveBreaks_get_ge (runs : List Run) (k i : ℕ)
    (hk : k ≤ runs.length) (hki : k ≤ i) :
    (interleaveBreaks runs k).get? (k + i) = runs.get? i := by
  induction runs generalizing k i with
  | nil =>
    have hk0 : k = 0 := by simpa using hk
    subst hk0
    simp [interleaveBreaks]
  | cons r rest ih =>
    match k, i with
    | 0, i =>
      rw [interleaveBreaks_zero, Nat.zero_add]
    | Nat.succ k', Nat.succ j =>
      have h2 : Nat.succ k' + Nat.succ j = (k' + j).succ.succ := by omega
      rw [h2]
      simp only [interleaveBreaks, List.get?]
      exact ih k' j (by simpa using hk) (by omega)

/--
C5 counterexample: a paragraph with three text runs and a single break
marker does not fit the "N breaks with N+1 runs" pattern, yet the code
still interleaves (the break lands after the first run) instead of
appending the break as a trailing item as the claim states.
-/
theorem extractRuns_single_break_counterexample :
    extractRuns [{ t := some "a" }, { t := some "b" }, { t := some "c" }] [] 1
      = [{ text := "a" }, breakRun, { text := "b" }, { text := "c" }]
    ∧ extractRuns [{ t := some "a" }, { t := some "b" }, { t := some "c" }] [] 1
      ≠ [{ text := "a" }, { text := "b" }, { text := "c" }, breakRun] := by
  constructor
  · rfl
  · decide

/--
C5 amended: breaks are interleaved whenever `1 ≤ breakCount ≤
contentRuns.length - 1` and there are at least two content runs — not only
for N breaks with exactly N+1 runs — with break `i` placed directly after
content run `i` (cells `2i`/`2i+1`, remaining runs shifted by
`breakCount`); in every other case (zero breaks, fewer than two runs, or
more breaks than gaps) all break markers are appended as trailing items.
-/
theorem extractRuns_break_placement (ar : List TextRunEl) (afld : List FldEl)
    (n : ℕ) :
    (1 ≤ n → 2 ≤ (contentRunsOf ar afld).length →
      n ≤ (contentRunsOf ar afld).length - 1 →
      extractRuns ar afld n = interleaveBreaks (contentRunsOf ar afld) n
      ∧ (∀ i, i < n →
          (interleaveBreaks (contentRunsOf ar afld) n).get? (2 * i)
            = (contentRunsOf ar afld).get? i
          ∧ (interleaveBreaks (contentRunsOf ar afld) n).get? (2 * i + 1)
            = some breakRun)
      ∧ (∀ i, n ≤ i →
          (interleaveBreaks (contentRunsOf ar afld) n).get? (n + i)
            = (contentRunsOf ar afld).get? i))
    ∧ (n = 0 ∨ (contentRunsOf ar afld).length ≤ 1
        ∨ (contentRunsOf ar afld).length - 1 < n →
      extractRuns ar afld n
        = contentRunsOf ar afld ++ List.replicate n breakRun) := by
  constructor
  · intro h1 h2 h3
    refine ⟨?_, ?_, ?_⟩
    · unfold extractRuns
      rw [if_pos ⟨by omega, by omega, h3⟩]
    · intro i hi
      exact interleaveBreaks_get_lt _ n i hi (by omega)
    · intro i hi
      exact interleaveBreaks_get_ge _ n i (by omega) hi
  · intro h
    unfold extractRuns
    rw [if_neg (by omega)]

/-- Witness for C5's amended theorem: one break between two content runs is
interleaved; three breaks over two runs are appended trailing. -/
theorem extractRuns_break_placement_witness :
    extractRuns [{ t := some "x" }]
        [{ t := some "1", typ := some "slidenum" }] 1
      = interleaveBreaks
          (contentRunsOf [{ t := some "x" }]
            [{ t := some "1", typ := some "slidenum" }]) 1
    ∧ extractRuns [{ t := some "x" }, { t := some "y" }] [] 3
      = contentRunsOf [{ t := some "x" }, { t := some "y" }] []
          ++ List.replicate 3 breakRun :=
  ⟨((extractRuns_break_placement [{ t := some "x" }]
      [{ t := some "1", typ := some "slidenum" }] 1).1
      (by decide) (by decide) (by decide)).1,
   (extractRuns_break_placement [{ t := some "x" }, { t := some "y" }] [] 3).2
      (Or.inr (Or.inr (by decide)))⟩

/--
C6 counterexample: a placeholder with a local position but no local text
body performs no inheritance lookup at all — the master's textProps
default for its type exists yet the returned textProps stays absent,
although the claim says a missing local text body triggers the lookup.
-/
theorem processShape_position_blocks_text_inheritance_counterexample :
    (processShapePlaceholder { type := some "title" }
        (some ⟨1, 2, 3, 4⟩) none
        (some (fun k => if k = "title"
          then some { position := some ⟨5, 6, 7, 8⟩,
                      textProps := some "masterTextProps" }
          else none))).2 = none
    ∧ (lookupMasterPh
        (fun k => if k = "title"
          then some { position := some ⟨5, 6, 7, 8⟩,
                      textProps := some "masterTextProps" }
          else none)
        { type := some "title" }).bind (fun m => m.textProps)
      = some "masterTextProps" :=
  ⟨rfl, rfl⟩

/--
C6 amended: only a missing local position triggers the master-defaults
lookup (keyed by type name first, else by `idx:<n>`); within that lookup a
missing local text body also inherits the master textProps; a placeholder
with a local position keeps both its position and its (possibly absent)
text body untouched, and local values always win over master defaults.
-/
theorem processShape_inheritance (ph : PhTag) (pos : Option Position)
    (tp : Option String) (md : String → Option MasterPh) (p : Position) :
    (processShapePlaceholder ph none tp (some md)
      = ((lookupMasterPh md ph).bind (fun m => m.position),
         match tp with
         | some t => some t
         | none => (lookupMasterPh md ph).bind (fun m => m.textProps)))
    ∧ (processShapePlaceholder ph (some p) tp (some md) = (some p, tp))
    ∧ (processShapePlaceholder ph pos tp none = (pos, tp))
    ∧ (∀ t m, ph.type = some t → md t = some m →
        lookupMasterPh md ph = some m)
    ∧ (∀ i, ph.type.bind md = none → ph.idx = some i →
        lookupMasterPh md ph = md ("idx:" ++ i)) := by
  refine ⟨?_, ?_, ?_, ?_, ?_⟩
  · cases tp with
    | none =>
      cases h : lookupMasterPh md ph with
      | none => simp [processShapePlaceholder, h]
      | some m => simp [processShapePlaceholder, h]
    | some t =>
      cases h : lookupMasterPh md ph with
      | none => simp [processShapePlaceholder, h]
      | some m => simp [processShapePlaceholder, h]
  · rfl
  · cases pos <;> rfl
  · intro t m h1 h2
    simp [lookupMasterPh, h1, h2]
  · intro i h1 h2
    simp [lookupMasterPh, h1, h2]

/-- Witness for C6's amended theorem: a type-keyed master default is found
by the lookup, and a placeholder with no local position inherits it. -/
theorem processShape_inheritance_witness :
    lookupMasterPh
        (fun k => if k = "body"
          then some { position := some ⟨1, 1, 8, 4⟩, textProps := none }
          else none)
        { type := some "body" }
      = some { position := some ⟨1, 1, 8, 4⟩, textProps := none } :=
  (processShape_inheritance { type := some "body" } none none
      (fun k => if k = "body"
        then some { position := some ⟨1, 1, 8, 4⟩, textProps := none }
        else none)
      ⟨0, 0, 0, 0⟩).2.2.2.1 "body"
    { position := some ⟨1, 1, 8, 4⟩, textProps := none } rfl rfl

/--
C7 counterexample: a shape containing a slidenum field plus a second,
non-slidenum field (`datetime`) whose cached text is empty is still
accepted as a slide number — the code only rejects runs with non-whitespace
text, not other fields as such — although the claim requires `null`
whenever any other field is present.
-/
theorem extractSlideNumberFromShape_other_field_counterexample :
    extractSlideNumberFromShape (some
      { textProps := some
          { paragraphs := some
              [{ runs := some
                  [{ text := "1", isField := true, fieldType := "slidenum" },
                   { text := "", isField := true, fieldType := "datetime" }] }],
            textOpts := { fontSize := some 8 } },
        position := some ⟨12, 7, 1, 1⟩ })
      = some { x := 12, y := 7, w := 1, h := 1, fontSize := some 8 } := by
  simp only [extractSlideNumberFromShape]
  rw [if_neg (by decide)]
  dsimp only [Option.getD]
  have hwz : ¬((1 : ℚ) = 0 ∧ (1 : ℚ) = 0) := by norm_num
  rw [if_neg hwz]
  unfold normalizeSlideNumberHeight
  rw [if_neg (by
    unfold slideNumMinHeight slideNumFontSize jsRound
    norm_num)]

/--
C7 amended: a slide-number object is returned exactly when some run is a
slidenum field, no non-break non-slidenum run carries non-whitespace text
(other fields with empty or whitespace-only cached text do NOT
disqualify), and the shape is not zero-size (`w=0 ∧ h=0` yields null);
the height is normalized upward to
`round(fontSize*2.5/72*10000)/10000` — at least ~2.5× the font size in
inches, with fontSize defaulting to 8 when absent or 0.
-/
theorem extractSlideNumberFromShape_spec (sh : SNShape) (tp : SNTextProps)
    (paras : List SNPara) (res : SlideNumResult)
    (htp : sh.textProps = some tp) (hpar : tp.paragraphs = some paras) :
    (hasSlideNumFieldIn paras = false ∨ hasOtherContentIn paras = true →
      extractSlideNumberFromShape (some sh) = none)
    ∧ ((sh.position.getD ⟨0, 0, 0, 0⟩).w = 0
        ∧ (sh.position.getD ⟨0, 0, 0, 0⟩).h = 0 →
      extractSlideNumberFromShape (some sh) = none)
    ∧ (hasSlideNumFieldIn paras = true → hasOtherContentIn paras = false →
      ¬((sh.position.getD ⟨0, 0, 0, 0⟩).w = 0
          ∧ (sh.position.getD ⟨0, 0, 0, 0⟩).h = 0) →
      extractSlideNumberFromShape (some sh)
        = some (normalizeSlideNumberHeight
            { x := (sh.position.getD ⟨0, 0, 0, 0⟩).x,
              y := (sh.position.getD ⟨0, 0, 0, 0⟩).y,
              w := (sh.position.getD ⟨0, 0, 0, 0⟩).w,
              h := (sh.position.getD ⟨0, 0, 0, 0⟩).h,
              fontSize := tp.textOpts.fontSize }))
    ∧ (normalizeSlideNumberHeight res).h
        = max res.h (slideNumMinHeight res.fontSize) := by
  refine ⟨?_, ?_, ?_, ?_⟩
  · intro h
    simp only [extractSlideNumberFromShape, htp, hpar]
    rcases h with h | h <;> rw [if_pos (by simp [h])]
  · intro h
    simp only [extractSlideNumberFromShape, htp, hpar]
    by_cases hb : (!(hasSlideNumFieldIn paras) || hasOtherContentIn paras) = true
    · rw [if_pos hb]
    · rw [if_neg hb, if_pos h]
  · intro h1 h2 h3
    simp only [extractSlideNumberFromShape, htp, hpar]
    rw [if_neg (by simp [h1, h2]), if_neg h3]
  · unfold normalizeSlideNumberHeight
    by_cases hlt : res.h < slideNumMinHeight res.fontSize
    · rw [if_pos hlt]
      exact (max_eq_right (le_of_lt hlt)).symm
    · rw [if_neg hlt]
      exact (max_eq_left (le_of_not_lt hlt)).symm

/-- Witness for C7's amended theorem: the spec's end-to-end scenario — a
lone slidenum field at `{12.5, 7.13, 0.34, 0.13}` with fontSize 8 is
accepted and its height normalized to 0.2778. -/
theorem extractSlideNumberFromShape_spec_witness :
    extractSlideNumberFromShape (some
      { textProps := some
          { paragraphs := some
              [{ runs := some
                  [{ text := "1", isField := true, fieldType := "slidenum" }] }],
            textOpts := { fontSize := some 8 } },
        position := some ⟨12.5, 7.13, 0.34, 0.13⟩ })
      = some { x := 12.5, y := 7.13, w := 0.34, h := 0.2778,
               fontSize := some 8 } := by
  have h := (extractSlideNumberFromShape_spec
    { textProps := some
        { paragraphs := some
            [{ runs := some
                [{ text := "1", isField := true, fieldType := "slidenum" }] }],
          textOpts := { fontSize := some 8 } },
      position := some ⟨12.5, 7.13, 0.34, 0.13⟩ }
    { paragraphs := some
        [{ runs := some
            [{ text := "1", isField := true, fieldType := "slidenum" }] }],
      textOpts := { fontSize := some 8 } }
    [{ runs := some
        [{ text := "1", isField := true, fieldType := "slidenum" }] }]
    ⟨0, 0, 0, 0, none⟩ rfl rfl).2.2.1
    (by decide) (by decide) (by norm_num)
  rw [h]
  dsimp only [Option.getD]
  unfold normalizeSlideNumberHeight
  rw [if_pos (by
    unfold slideNumMinHeight slideNumFontSize jsRound
    norm_num)]
  have hmin : slideNumMinHeight (some 8) = 0.2778 := by
    unfold slideNumMinHeight slideNumFontSize jsRound
    norm_num
  simp only [hmin]

/-- Membership in the de-duplicated list: in the input and not yet seen. -/
theorem mem_uniqFirstAux (x : String) (l : List String) :
    ∀ seen, x ∈ uniqFirstAux seen l ↔ (x ∈ l ∧ x ∉ seen) := by
  induction l with
  | nil => intro seen; simp [uniqFirstAux]
  | cons y xs ih =>
    intro seen
    by_cases hy : y ∈ seen
    · rw [show uniqFirstAux seen (y :: xs) = uniqFirstAux seen xs from by
        simp [uniqFirstAux, hy]]
      rw [ih seen]
      simp only [List.mem_cons]
      constructor
      · rintro ⟨h1, h2⟩
        exact ⟨Or.inr h1, h2⟩
      · rintro ⟨h1 | h1, h2⟩
        · exact absurd (show x ∈ seen from by rw [h1]; exact hy) h2
        · exact ⟨h1, h2⟩
    · rw [show uniqFirstAux seen (y :: xs) = y :: uniqFirstAux (y :: seen) xs
        from by simp [uniqFirstAux, hy]]
      simp only [List.mem_cons, ih (y :: seen)]
      constructor
      · rintro (h | ⟨h1, h2⟩)
        · refine ⟨Or.inl h, ?_⟩
          rw [h]
          exact hy
        · refine ⟨Or.inr h1, ?_⟩
          intro hc
          exact h2 (Or.inr hc)
      · rintro ⟨h1 | h1, h2⟩
        · exact Or.inl h1
        · by_cases hxy : x = y
          · exact Or.inl hxy
          · refine Or.inr ⟨h1, ?_⟩
            rintro (hc | hc)
            · exact hxy hc
            · exact h2 hc

/-- The de-duplicated list has no duplicates. -/
theorem nodup_uniqFirstAux (l : List String) :
    ∀ seen, (uniqFirstAux seen l).Nodup := by
  induction l with
  | nil => intro seen; simp [uniqFirstAux]
  | cons y xs ih =>
    intro seen
    by_cases hy : y ∈ seen
    · simpa [uniqFirstAux, hy] using ih seen
    · rw [show uniqFirstAux seen (y :: xs) = y :: uniqFirstAux (y :: seen) xs
        from by simp [uniqFirstAux, hy]]
      refine List.nodup_cons.mpr ⟨?_, ih (y :: seen)⟩
      intro hc
      exact ((mem_uniqFirstAux y xs (y :: seen)).mp hc).2
        (List.mem_cons_self y seen)

/-- Fewer than two distinct values remain exactly when the input list is
pairwise equal. -/
theorem uniqFirst_length_lt_two_iff (l : List String) :
    (uniqFirst l).length < 2 ↔ ∀ a a', a ∈ l → a' ∈ l → a = a' := by
  constructor
  · intro hl a a' ha ha'
    have hma : a ∈ uniqFirst l := (mem_uniqFirstAux a l []).mpr ⟨ha, by simp⟩
    have hma' : a' ∈ uniqFirst l := (mem_uniqFirstAux a' l []).mpr ⟨ha', by simp⟩
    cases hu : uniqFirst l with
    | nil =>
      rw [hu] at hma
      simp at hma
    | cons u us =>
      cases us with
      | nil =>
        rw [hu] at hma hma'
        simp at hma hma'
        rw [hma, hma']
      | cons v vs =>
        rw [hu] at hl
        simp only [List.length_cons] at hl
        omega
  · intro hall
    by_contra hc
    push_neg at hc
    cases hu : uniqFirst l with
    | nil =>
      rw [hu] at hc
      simp at hc
    | cons u us =>
      cases us with
      | nil =>
        rw [hu] at hc
        simp at hc
      | cons v vs =>
        have hnd := nodup_uniqFirstAux l []
        rw [show uniqFirstAux [] l = uniqFirst l from rfl, hu] at hnd
        have huv : u ≠ v := by
          intro he
          exact (List.nodup_cons.mp hnd).1 (he ▸ List.mem_cons_self v vs)
        have hum : u ∈ l :=
          ((mem_uniqFirstAux u l []).mp
            (by rw [show uniqFirstAux [] l = uniqFirst l from rfl, hu]; simp)).1
        have hvm : v ∈ l :=
          ((mem_uniqFirstAux v l []).mp
            (by rw [show uniqFirstAux [] l = uniqFirst l from rfl, hu]; simp)).1
        exact huv (hall u v hum hvm)

/--
C8: an accent is classified neutral exactly when its luma-weighted
brightness exceeds 245 or is below 10; neutrals are excluded from the six
accent slots; the palette is limited iff fewer than two distinct
non-neutral accents remain; an all-`FFFFFF` theme is limited with zero
usable accents; two or more distinct non-neutral accents are never
flagged limited.
-/
theorem detectLimitedPalette_spec (tc : String → Option String)
    (s : String) (b : ℚ) :
    (hexBrightness s = some b →
      (isUsableAccent s = false ↔ (245 < b ∨ b < 10)))
    ∧ ((detectLimitedPalette (some tc)).1 = true ↔
        ∀ a a', a ∈ nonNeutralAccents tc → a' ∈ nonNeutralAccents tc → a = a')
    ∧ detectLimitedPalette (some (fun _ => some "FFFFFF")) = (true, [])
    ∧ (∀ a a', a ≠ a' → a ∈ nonNeutralAccents tc →
        a' ∈ nonNeutralAccents tc →
        (detectLimitedPalette (some tc)).1 = false) := by
  refine ⟨?_, ?_, ?_, ?_⟩
  · intro hb
    unfold isUsableAccent
    rw [hb]
    dsimp only
    constructor
    · intro hf
      by_contra hcon
      push_neg at hcon
      rw [decide_eq_true hcon.1, decide_eq_true hcon.2] at hf
      simp at hf
    · rintro (hc | hc)
      · rw [decide_eq_false (not_le.mpr hc)]
        simp
      · rw [decide_eq_false (not_le.mpr hc)]
        simp
  · rw [show (detectLimitedPalette (some tc)).1
        = decide ((uniqFirst (nonNeutralAccents tc)).length < 2) from rfl]
    rw [decide_eq_true_eq]
    exact uniqFirst_length_lt_two_iff _
  · have hb : hexBrightness "FFFFFF" = some 255 := by
      simp only [hexBrightness]
      rw [show stripHash "FFFFFF" = "FFFFFF" from rfl]
      rw [if_neg (by decide)]
      rw [show hexToRgb "FFFFFF" = some (255, 255, 255) from by decide]
      norm_num
    have hus : isUsableAccent "FFFFFF" = false := by
      unfold isUsableAccent
      rw [hb]
      dsimp only
      rw [decide_eq_false (by norm_num : ¬ (255 : ℚ) ≤ 245)]
      simp
    have hnn : nonNeutralAccents (fun _ => some "FFFFFF") = [] := by
      simp [nonNeutralAccents, accentSlots, hus]
    rw [show detectLimitedPalette (some (fun _ => some "FFFFFF"))
        = (decide ((uniqFirst (nonNeutralAccents (fun _ => some "FFFFFF"))).length < 2),
           uniqFirst (nonNeutralAccents (fun _ => some "FFFFFF"))) from rfl]
    rw [hnn]
    simp [uniqFirst, uniqFirstAux]
  · intro a a' hne ha ha'
    rw [show (detectLimitedPalette (some tc)).1
        = decide ((uniqFirst (nonNeutralAccents tc)).length < 2) from rfl]
    apply decide_eq_false
    intro hlen
    exact hne ((uniqFirst_length_lt_two_iff _).mp hlen a a' ha ha')

/-- Witness for C8: black is classified neutral via the brightness rule,
and a theme with two distinct usable accents is not limited. -/
theorem detectLimitedPalette_spec_witness :
    isUsableAccent "000000" = false
    ∧ (detectLimitedPalette (some twoAccentTheme)).1 = false := by
  have hb0 : hexBrightness "000000" = some 0 := by
    simp only [hexBrightness]
    rw [show stripHash "000000" = "000000" from rfl]
    rw [if_neg (by decide)]
    rw [show hexToRgb "000000" = some (0, 0, 0) from by decide]
    norm_num
  have hb1 : hexBrightness "4472C4" = some (68 * 0.299 + 114 * 0.587 + 196 * 0.114) := by
    simp only [hexBrightness]
    rw [show stripHash "4472C4" = "4472C4" from rfl]
    rw [if_neg (by decide)]
    rw [show hexToRgb "4472C4" = some (68, 114, 196) from by decide]
    norm_num
  have hb2 : hexBrightness "FF0000" = some (255 * 0.299) := by
    simp only [hexBrightness]
    rw [show stripHash "FF0000" = "FF0000" from rfl]
    rw [if_neg (by decide)]
    rw [show hexToRgb "FF0000" = some (255, 0, 0) from by decide]
    norm_num
  have hu1 : isUsableAccent "4472C4" = true := by
    unfold isUsableAccent
    rw [hb1]
    dsimp only
    rw [decide_eq_true (by norm_num :
        (68 * 0.299 + 114 * 0.587 + 196 * 0.114 : ℚ) ≤ 245),
      decide_eq_true (by norm_num :
        (10 : ℚ) ≤ 68 * 0.299 + 114 * 0.587 + 196 * 0.114)]
    rfl
  have hu2 : isUsableAccent "FF0000" = true := by
    unfold isUsableAccent
    rw [hb2]
    dsimp only
    rw [decide_eq_true (by norm_num : (255 * 0.299 : ℚ) ≤ 245),
      decide_eq_true (by norm_num : (10 : ℚ) ≤ 255 * 0.299)]
    rfl
  have hnn : nonNeutralAccents twoAccentTheme = ["4472C4", "FF0000"] := by
    simp [nonNeutralAccents, accentSlots, twoAccentTheme, hu1, hu2]
  constructor
  · exact (detectLimitedPalette_spec twoAccentTheme "000000" 0).1 hb0
      |>.mpr (Or.inr (by norm_num))
  · exact (detectLimitedPalette_spec twoAccentTheme "" 0).2.2.2
      "4472C4" "FF0000" (by decide)
      (by rw [hnn]; simp) (by rw [hnn]; simp)

/-- The loop preserves the placeholder subsequence exactly. -/
theorem dedupAux_filter_ph (l : List SlideObject) :
    ∀ seen, (dedupAux seen l).filter (fun o => o.placeholder.isSome)
      = l.filter (fun o => o.placeholder.isSome) := by
  induction l with
  | nil => intro seen; rfl
  | cons obj rest ih =>
    intro seen
    by_cases hph : obj.placeholder.isSome
    · simp only [dedupAux, if_pos hph]
      rw [List.filter_cons, List.filter_cons]
      simp [hph, ih seen]
    · cases hk : dedupKey obj with
      | none =>
        simp only [dedupAux, if_neg hph, hk]
        rw [List.filter_cons, List.filter_cons]
        simp [hph, ih seen]
      | some k0 =>
        by_cases hmem : k0 ∈ seen
        · simp only [dedupAux, if_neg hph, hk, if_pos hmem]
          rw [ih seen, List.filter_cons]
          simp [hph]
        · simp only [dedupAux, if_neg hph, hk, if_neg hmem]
          rw [List.filter_cons, List.filter_cons]
          simp [hph, ih (k0 :: seen)]

/-- The loop agrees with the claim-level specification whenever the seen
set and the scanned prefix agree on key membership. -/
theorem dedupAux_eq_spec (l : List SlideObject) :
    ∀ (seen : List DedupKey) (prev : List SlideObject),
      (∀ k, k ∈ seen ↔ k ∈ prevKeys prev) →
      dedupAux seen l = dedupClaimSpec prev l := by
  induction l with
  | nil => intro seen prev _; rfl
  | cons obj rest ih =>
    intro seen prev hinv
    have hkeys : ∀ k, k ∈ prevKeys (prev ++ [obj])
        ↔ (k ∈ prevKeys prev ∨ (¬ obj.placeholder.isSome
             ∧ dedupKey obj = some k)) := by
      intro k
      unfold prevKeys
      rw [List.filterMap_append]
      rw [List.mem_append]
      constructor
      · rintro (h | h)
        · exact Or.inl h
        · right
          by_cases hph : obj.placeholder.isSome
          · simp [hph] at h
          · simp [hph] at h
            exact ⟨hph, h.2⟩
      · rintro (h | ⟨h1, h2⟩)
        · exact Or.inl h
        · right
          simp [h1, h2]
    by_cases hph : obj.placeholder.isSome
    · simp only [dedupAux, dedupClaimSpec, if_pos hph]
      congr 1
      apply ih
      intro k
      rw [hinv k, hkeys k]
      simp [hph]
    · cases hk : dedupKey obj with
      | none =>
        simp only [dedupAux, dedupClaimSpec, if_neg hph, hk]
        congr 1
        apply ih
        intro k
        rw [hinv k, hkeys k]
        simp [hk]
      | some k0 =>
        simp only [dedupAux, dedupClaimSpec, if_neg hph, hk]
        by_cases hmem : k0 ∈ seen
        · rw [if_pos hmem, if_pos ((hinv k0).mp hmem)]
          apply ih
          intro k
          rw [hinv k, hkeys k]
          constructor
          · exact fun h => Or.inl h
          · rintro (h | ⟨h1, h2⟩)
            · exact h
            · rw [hk] at h2
              cases h2
              exact (hinv k0).mp hmem
        · rw [if_neg hmem, if_neg (fun hc => hmem ((hinv k0).mpr hc))]
          congr 1
          apply ih
          intro k
          rw [List.mem_cons, hinv k, hkeys k]
          constructor
          · rintro (h | h)
            · exact Or.inr ⟨hph, by rw [hk, h]⟩
            · exact Or.inl h
          · rintro (h | ⟨h1, h2⟩)
            · exact Or.inr h
            · rw [hk] at h2
              cases h2
              exact Or.inl rfl

/--
C9: `deduplicateObjects` never removes an object carrying a placeholder
key — the placeholder subsequence of the output equals that of the input,
in order — and the whole function equals the claim-level specification:
only text/image/rect objects whose type-content-position key (coordinates
rounded to two decimals) matches an earlier object's key are dropped.
-/
theorem deduplicateObjects_placeholder_safe (l : List SlideObject) :
    (deduplicateObjects l).filter (fun o => o.placeholder.isSome)
      = l.filter (fun o => o.placeholder.isSome)
    ∧ deduplicateObjects l = dedupClaimSpec [] l := by
  constructor
  · exact dedupAux_filter_ph l []
  · exact dedupAux_eq_spec l [] [] (by intro k; simp [prevKeys])

/--
C10: `resolveRelPath` is total — a Lean function defined on every pair of
strings, with `..` popping an empty segment stack as a silent no-op — so
any number of excess `..` segments beyond the base directory's depth is
simply ignored, and in particular
`resolveRelPath "a.xml" "../../x/y.xml" = "x/y.xml"`.
-/
theorem resolveRelPath_excess_parent_ignored (n : ℕ) (segs : List String) :
    processSegments [] (List.replicate n ".." ++ segs)
      = processSegments [] segs
    ∧ resolveRelPath "a.xml" "../../x/y.xml" = "x/y.xml" := by
  constructor
  · induction n with
    | zero => rfl
    | succ m ih =>
      rw [List.replicate_succ, List.cons_append]
      rw [show processSegments []
            ((".." : String) :: (List.replicate m ".." ++ segs))
          = processSegments (([] : List String).dropLast)
            (List.replicate m ".." ++ segs) from by
        simp [processSegments]]
      exact ih
  · decide
